import Mathlib

/-!
Verification of the signal-extract scoring and structured-extraction pipeline.

This file gives a shallow embedding, translated from the Python sources
(`src/filters/scorer.py`, `src/synthesizer/engine.py`, `src/storage/db.py`,
`src/models.py`), of the data model and the operations the specification's
claims are about, together with theorems settling each claim.

Conventions of the embedding:
* Python runtime values that flow through `dict` metadata and decoded JSON are
  modelled by the dynamic value type `JVal` (with `int`, `bool` and `float`
  kept apart, since `isinstance` checks and arithmetic distinguish them;
  Python `bool` is a subtype of `int` and is accepted wherever `int` is).
* Python exceptions are modelled by `Except PyErr`; the distinct exception
  classes matter because `except` clauses catch some and not others.
* Python `re` patterns are kept verbatim as strings and interpreted by a
  small backtracking regex engine (`RE`, `reMatch`, `reSearch`, `subFence`)
  covering exactly the constructs the source's patterns use, with Python's
  leftmost / greedy-first preference order.
* SQLite tables are modelled as lists of row structures; `INSERT OR REPLACE`
  under `PRAGMA foreign_keys=ON` follows SQLite's actual semantics (the
  replacement happens within one statement, so the foreign key from evidence
  rows is satisfied at statement end and the old child rows remain).
-/

namespace SignalExtract

/-- Model of a Python value as found in `item.metadata` dictionaries and in
decoded JSON (`json.loads` output): `None`, `bool`, `int`, `float`, `str`,
`list`, `dict`. Floats are modelled as rationals. -/
inductive JVal where
  | null : JVal
  | bool (b : Bool) : JVal
  | int (n : Int) : JVal
  | float (q : Rat) : JVal
  | str (s : String) : JVal
  | arr (elems : List JVal) : JVal
  | obj (fields : List (String × JVal)) : JVal

instance : Inhabited JVal := ⟨.null⟩

mutual

/-- Structural equality on `JVal`. -/
def JVal.beq : JVal → JVal → Bool
  | .null, .null => true
  | .bool a, .bool b => a == b
  | .int a, .int b => a == b
  | .float a, .float b => a == b
  | .str a, .str b => a == b
  | .arr xs, .arr ys => JVal.beqList xs ys
  | .obj fs, .obj gs => JVal.beqFields fs gs
  | _, _ => false

def JVal.beqList : List JVal → List JVal → Bool
  | [], [] => true
  | x :: xs, y :: ys => JVal.beq x y && JVal.beqList xs ys
  | _, _ => false

def JVal.beqFields : List (String × JVal) → List (String × JVal) → Bool
  | [], [] => true
  | (k, v) :: fs, (l, w) :: gs => k == l && JVal.beq v w && JVal.beqFields fs gs
  | _, _ => false

end

mutual

def JVal.beq_iff : ∀ a b : JVal, JVal.beq a b = true ↔ a = b
  | .null, .null => by simp [JVal.beq]
  | .bool a, .bool b => by simp [JVal.beq]
  | .int a, .int b => by simp [JVal.beq]
  | .float a, .float b => by simp [JVal.beq]
  | .str a, .str b => by simp [JVal.beq]
  | .arr xs, .arr ys => by
      simp only [JVal.beq, JVal.beqList_iff xs ys, JVal.arr.injEq]
  | .obj fs, .obj gs => by
      simp only [JVal.beq, JVal.beqFields_iff fs gs, JVal.obj.injEq]
  | .null, .bool _ | .null, .int _ | .null, .float _ | .null, .str _
  | .null, .arr _ | .null, .obj _
  | .bool _, .null | .bool _, .int _ | .bool _, .float _ | .bool _, .str _
  | .bool _, .arr _ | .bool _, .obj _
  | .int _, .null | .int _, .bool _ | .int _, .float _ | .int _, .str _
  | .int _, .arr _ | .int _, .obj _
  | .float _, .null | .float _, .bool _ | .float _, .int _ | .float _, .str _
  | .float _, .arr _ | .float _, .obj _
  | .str _, .null | .str _, .bool _ | .str _, .int _ | .str _, .float _
  | .str _, .arr _ | .str _, .obj _
  | .arr _, .null | .arr _, .bool _ | .arr _, .int _ | .arr _, .float _
  | .arr _, .str _ | .arr _, .obj _
  | .obj _, .null | .obj _, .bool _ | .obj _, .int _ | .obj _, .float _
  | .obj _, .str _ | .obj _, .arr _ => by simp [JVal.beq]

def JVal.beqList_iff : ∀ xs ys : List JVal, JVal.beqList xs ys = true ↔ xs = ys
  | [], [] => by simp [JVal.beqList]
  | x :: xs, y :: ys => by
      simp [JVal.beqList, JVal.beq_iff x y, JVal.beqList_iff xs ys]
  | [], _ :: _ => by simp [JVal.beqList]
  | _ :: _, [] => by simp [JVal.beqList]

def JVal.beqFields_iff :
    ∀ fs gs : List (String × JVal), JVal.beqFields fs gs = true ↔ fs = gs
  | [], [] => by simp [JVal.beqFields]
  | (k, v) :: fs, (l, w) :: gs => by
      simp [JVal.beqFields, JVal.beq_iff v w, JVal.beqFields_iff fs gs, and_assoc]
  | [], _ :: _ => by simp [JVal.beqFields]
  | _ :: _, [] => by simp [JVal.beqFields]

end

instance : DecidableEq JVal := fun a b => decidable_of_iff _ (JVal.beq_iff a b)

instance {ε α : Type} [DecidableEq ε] [DecidableEq α] : DecidableEq (Except ε α) :=
  fun a b =>
    match a, b with
    | .ok x, .ok y =>
        if h : x = y then .isTrue (by rw [h])
        else .isFalse (by intro hh; cases hh; exact h rfl)
    | .error x, .error y =>
        if h : x = y then .isTrue (by rw [h])
        else .isFalse (by intro hh; cases hh; exact h rfl)
    | .ok _, .error _ => .isFalse (by intro hh; cases hh)
    | .error _, .ok _ => .isFalse (by intro hh; cases hh)

/-- Model of the Python exception classes the engine distinguishes in its
`except` clauses. -/
inductive PyErr where
  | valueError (msg : String) : PyErr
  | typeError (msg : String) : PyErr
  | attributeError (msg : String) : PyErr
  | jsonDecodeError (msg : String) : PyErr
  | llmError (msg : String) : PyErr
  deriving Repr, DecidableEq

namespace JVal

/-- `type(v).__name__`. -/
def typeName : JVal → String
  | .null => "NoneType"
  | .bool _ => "bool"
  | .int _ => "int"
  | .float _ => "float"
  | .str _ => "str"
  | .arr _ => "list"
  | .obj _ => "dict"

/-- Python truthiness of a value. -/
def truthy : JVal → Bool
  | .null => false
  | .bool b => b
  | .int n => n != 0
  | .float q => q != 0
  | .str s => s != ""
  | .arr xs => !xs.isEmpty
  | .obj fs => !fs.isEmpty

end JVal

/-- `d.get(key, default)` on a Python dict modelled as an association list
with distinct keys (first match wins). -/
def dictGet (fields : List (String × JVal)) (key : String) (dflt : JVal) : JVal :=
  match fields.find? (fun kv => kv.1 == key) with
  | some kv => kv.2
  | none => dflt

/-- `key in d` on a Python dict. -/
def dictHas (fields : List (String × JVal)) (key : String) : Bool :=
  (fields.find? (fun kv => kv.1 == key)).isSome

/-- Insert a key into a dict, replacing in place on duplicate (the semantics
`json.loads` uses for repeated object keys: last value wins, first position
kept). -/
def dictInsert (fields : List (String × JVal)) (key : String) (v : JVal) :
    List (String × JVal) :=
  match fields with
  | [] => [(key, v)]
  | kv :: rest =>
      if kv.1 == key then (key, v) :: rest else kv :: dictInsert rest key v

/-- The characters Python's `str.strip()` removes (ASCII whitespace). -/
def pyWs (c : Char) : Bool :=
  c == ' ' || c == '\t' || c == '\n' || c == '\r' || c == '\x0b' || c == '\x0c'

/-- Python `str.strip()`. -/
def pyStrip (s : String) : String :=
  ⟨(((s.data.dropWhile pyWs).reverse.dropWhile pyWs).reverse)⟩

/-- Python `str.lower()` (on the ASCII range, which is all the scorer's
patterns distinguish). -/
def pyLowerStr (s : String) : String :=
  ⟨s.data.map Char.toLower⟩

/-- Truncation toward zero, as Python's `int(float)` conversion does. -/
def ratTrunc (q : Rat) : Int :=
  if 0 ≤ q then ⌊q⌋ else -⌊-q⌋

/-- Digits-only integer literal body check, used by `int(str)`. -/
def digitsToInt? (cs : List Char) : Option Int :=
  if cs ≠ [] && cs.all Char.isDigit then
    some (cs.foldl (fun acc c => acc * 10 + (c.toNat - '0'.toNat : Int)) 0)
  else none

/-- Python `int(str)`: optional surrounding whitespace, optional sign,
decimal digits. -/
def strToInt? (s : String) : Option Int :=
  let cs := (s.data.dropWhile pyWs).reverse.dropWhile pyWs |>.reverse
  match cs with
  | '+' :: rest => digitsToInt? rest
  | '-' :: rest => (digitsToInt? rest).map Neg.neg
  | _ => digitsToInt? cs

/-- Python `int(x)` on a dynamic value: `int`/`bool` pass through, `float`
truncates toward zero, `str` parses a decimal literal (raising `ValueError`
otherwise), anything else raises `TypeError`. -/
def pyInt (v : JVal) : Except PyErr Int :=
  match v with
  | .int n => .ok n
  | .bool b => .ok (if b then 1 else 0)
  | .float q => .ok (ratTrunc q)
  | .str s =>
      match strToInt? s with
      | some n => .ok n
      | none => .error (.valueError
          ("invalid literal for int() with base 10: '" ++ s ++ "'"))
  | other => .error (.typeError
      ("int() argument must be a string, a bytes-like object or a real number, not '"
        ++ other.typeName ++ "'"))

/-- Python `v.lower()` on a dynamic value: only strings have the attribute. -/
def pyLowerVal (v : JVal) : Except PyErr String :=
  match v with
  | .str s => .ok (pyLowerStr s)
  | other => .error (.attributeError
      ("'" ++ other.typeName ++ "' object has no attribute 'lower'"))

/-! ### A small regex engine

Interprets exactly the `re` constructs appearing in the source's patterns:
literals, character classes (with ranges and the escapes `\s`, `\d`, `\w`),
`.`, concatenation, alternation `|`, the quantifiers `*`, `+`, `?`,
`{m}`, `{m,n}`, groups `( )` / `(?: )`, the word boundary `\b` and the
anchor `$`.  Matching follows Python's backtracking preference order
(leftmost alternative first, greedy quantifiers), so the head of the
result list of `reMatch` is the match Python's engine reports. -/

/-- One member of a character class. -/
inductive ClsItem where
  | single (c : Char) : ClsItem
  | range (lo hi : Char) : ClsItem
  | space : ClsItem
  | digit : ClsItem
  | word : ClsItem
  deriving Repr, DecidableEq

/-- Regex abstract syntax. -/
inductive RE where
  | eps : RE
  | chr (c : Char) : RE
  | cls (items : List ClsItem) : RE
  | anyc : RE
  | cat (a b : RE) : RE
  | alt (a b : RE) : RE
  | star (r : RE) : RE
  | wb : RE
  | eol : RE
  deriving Repr, DecidableEq

/-- Python's `\s` on the ASCII range. -/
def isSpaceChar (c : Char) : Bool :=
  c == ' ' || c == '\t' || c == '\n' || c == '\r' || c == '\x0b' || c == '\x0c'

/-- Python's `\w` on the ASCII range. -/
def isWordChar (c : Char) : Bool :=
  c.isAlphanum || c == '_'

/-- Membership of a character in one class member. -/
def ClsItem.matches (it : ClsItem) (c : Char) : Bool :=
  match it with
  | .single d => c == d
  | .range lo hi => lo ≤ c && c ≤ hi
  | .space => isSpaceChar c
  | .digit => c.isDigit
  | .word => isWordChar c

/-- Is there a word boundary between the previous character and the rest of
the input? -/
def atBoundary (prev : Option Char) (s : List Char) : Bool :=
  let pw := match prev with | some c => isWordChar c | none => false
  let nw := match s with | c :: _ => isWordChar c | [] => false
  pw != nw

/-- Backtracking matcher.  `reMatch fuel r prev s` returns the list of
possible `(last consumed character, remaining input)` states after matching
`r` against a prefix of `s`, in Python's preference order (so the head is
the match the `re` engine picks).  `prev` is the character just before the
current position, for `\b`.  `fuel` bounds `*` unfoldings; every starred
subpattern in the source consumes at least one character per iteration, so
`length s + 1` fuel is always enough. -/
def reMatch : Nat → RE → Option Char → List Char → List (Option Char × List Char)
  | 0, _, _, _ => []
  | fuel + 1, re, prev, s =>
      match re with
      | .eps => [(prev, s)]
      | .chr c =>
          match s with
          | [] => []
          | x :: rest => if x == c then [(some x, rest)] else []
      | .cls items =>
          match s with
          | [] => []
          | x :: rest =>
              if items.any (fun it => it.matches x) then [(some x, rest)] else []
      | .anyc =>
          match s with
          | [] => []
          | x :: rest => if x == '\n' then [] else [(some x, rest)]
      | .cat a b =>
          (reMatch fuel a prev s).flatMap (fun st => reMatch fuel b st.1 st.2)
      | .alt a b => reMatch fuel a prev s ++ reMatch fuel b prev s
      | .star r =>
          ((reMatch fuel r prev s).flatMap
            (fun st => reMatch fuel (.star r) st.1 st.2)) ++ [(prev, s)]
      | .wb => if atBoundary prev s then [(prev, s)] else []
      | .eol => if s = [] ∨ s = ['\n'] then [(prev, s)] else []

/-- Size of a regex, used to budget matcher fuel. -/
def RE.size : RE → Nat
  | .eps | .chr _ | .cls _ | .anyc | .wb | .eol => 1
  | .cat a b | .alt a b => a.size + b.size + 1
  | .star r => r.size + 1

/-- Fuel that is always sufficient for the source's patterns (each starred
subpattern consumes at least one character per iteration, so the recursion
depth is bounded by `size * (length + 2)`). -/
def reFuel (r : RE) (s : List Char) : Nat :=
  (s.length + 2) * (r.size + 2)

/-- `re.search` (existence of a match at any start position).  `prev` is the
character before the current start position. -/
def searchFrom (r : RE) : Option Char → List Char → Bool
  | prev, s =>
      if reMatch (reFuel r s) r prev s ≠ [] then true
      else
        match s with
        | [] => false
        | c :: rest => searchFrom r (some c) rest

/-- `re.search(pattern, s) is not None` for a compiled pattern. -/
def reSearch (r : RE) (s : String) : Bool :=
  searchFrom r none s.data

/-- `r` repeated exactly `n` times. -/
def repExact (r : RE) (n : Nat) : RE :=
  match n with
  | 0 => .eps
  | n + 1 => .cat r (repExact r n)

/-- Up to `n` further greedy repetitions of `r` (for `{m,n}`). -/
def optChain (r : RE) (n : Nat) : RE :=
  match n with
  | 0 => .eps
  | n + 1 => .alt (.cat r (optChain r n)) .eps

/-- Class member for an escape character inside `[...]`. -/
def escClsItem (c : Char) : ClsItem :=
  match c with
  | 's' => .space
  | 'd' => .digit
  | 'w' => .word
  | c => .single c

/-- Parse the body of a character class, after `[`. -/
def parseClass : List Char → Option (List ClsItem × List Char)
  | ']' :: rest => some ([], rest)
  | '\\' :: c :: rest => do
      let (items, rest') ← parseClass rest
      pure (escClsItem c :: items, rest')
  | a :: '-' :: b :: rest =>
      if b == ']' then do
        let (items, rest') ← parseClass (b :: rest)
        pure (.single a :: .single '-' :: items, rest')
      else do
        let (items, rest') ← parseClass rest
        pure (.range a b :: items, rest')
  | a :: rest => do
      let (items, rest') ← parseClass rest
      pure (ClsItem.single a :: items, rest')
  | [] => none

/-- Parse a decimal number (for `{m,n}`). -/
def parseNum (cs : List Char) : Option (Nat × List Char) :=
  let ds := cs.takeWhile Char.isDigit
  if ds.isEmpty then none
  else some (ds.foldl (fun acc c => acc * 10 + (c.toNat - '0'.toNat)) 0,
             cs.drop ds.length)

mutual

/-- Parse an alternation (`a|b|c`, preferring the left alternative). -/
def parseAlt : Nat → List Char → Option (RE × List Char)
  | 0, _ => none
  | fuel + 1, cs => do
      let (r, cs1) ← parseCat fuel cs
      match cs1 with
      | '|' :: rest => do
          let (r2, cs2) ← parseAlt fuel rest
          pure (RE.alt r r2, cs2)
      | _ => pure (r, cs1)

/-- Parse a concatenation of pieces. -/
def parseCat : Nat → List Char → Option (RE × List Char)
  | 0, _ => none
  | fuel + 1, cs =>
      match cs with
      | [] => some (.eps, [])
      | ')' :: _ => some (.eps, cs)
      | '|' :: _ => some (.eps, cs)
      | _ => do
          let (p, cs1) ← parsePiece fuel cs
          let (r, cs2) ← parseCat fuel cs1
          pure (RE.cat p r, cs2)

/-- Parse an atom plus its quantifiers. -/
def parsePiece : Nat → List Char → Option (RE × List Char)
  | 0, _ => none
  | fuel + 1, cs => do
      let (a, cs1) ← parseAtom fuel cs
      parsePostfix fuel a cs1

/-- Apply any quantifiers (`*`, `+`, `?`, `{m}`, `{m,n}`) following an atom. -/
def parsePostfix : Nat → RE → List Char → Option (RE × List Char)
  | 0, _, _ => none
  | fuel + 1, a, cs =>
      match cs with
      | '*' :: rest => parsePostfix fuel (.star a) rest
      | '+' :: rest => parsePostfix fuel (.cat a (.star a)) rest
      | '?' :: rest => parsePostfix fuel (.alt a .eps) rest
      | '\x7b' :: rest => do
          let (m, cs1) ← parseNum rest
          match cs1 with
          | '\x7d' :: rest' => parsePostfix fuel (repExact a m) rest'
          | ',' :: cs2 => do
              let (n, cs3) ← parseNum cs2
              match cs3 with
              | '\x7d' :: rest' =>
                  parsePostfix fuel (.cat (repExact a m) (optChain a (n - m))) rest'
              | _ => none
          | _ => none
      | _ => some (a, cs)

/-- Parse a single atom: group, class, escape, anchor, `.` or literal. -/
def parseAtom : Nat → List Char → Option (RE × List Char)
  | 0, _ => none
  | fuel + 1, cs =>
      match cs with
      | '(' :: '?' :: ':' :: rest => do
          let (r, cs1) ← parseAlt fuel rest
          match cs1 with
          | ')' :: rest' => pure (r, rest')
          | _ => none
      | '(' :: rest => do
          let (r, cs1) ← parseAlt fuel rest
          match cs1 with
          | ')' :: rest' => pure (r, rest')
          | _ => none
      | '[' :: rest => do
          let (items, rest') ← parseClass rest
          pure (RE.cls items, rest')
      | '\\' :: c :: rest =>
          match c with
          | 'b' => some (.wb, rest)
          | 's' => some (.cls [.space], rest)
          | 'd' => some (.cls [.digit], rest)
          | 'w' => some (.cls [.word], rest)
          | 'n' => some (.chr '\n', rest)
          | 't' => some (.chr '\t', rest)
          | 'r' => some (.chr '\r', rest)
          | c => some (.chr c, rest)
      | '$' :: rest => some (.eol, rest)
      | '.' :: rest => some (.anyc, rest)
      | ')' :: _ => none
      | c :: rest => some (.chr c, rest)
      | [] => none

end

/-- Compile a pattern string; `none` if it uses a construct outside the
supported subset. -/
def parseRE (pat : String) : Option RE :=
  match parseAlt (4 * pat.length + 16) pat.data with
  | some (r, []) => some r
  | _ => none

/-- `re.search(pat, s) is not None`, from the pattern source text.  An
unparseable pattern matches nothing. -/
def searchPat (pat : String) (s : String) : Bool :=
  match parseRE pat with
  | some r => reSearch r s
  | none => false

/-! ### `_extract_json_array` (src/synthesizer/engine.py, lines 39-67) -/

/-- The code-fence pattern of `_extract_json_array`'s `re.sub`. -/
def fencePatStr : String := "```(?:json)?\\s*\\n?"

/-- The compiled fence pattern. -/
def fenceRE : RE := (parseRE fencePatStr).getD (.cls [])

/-- `re.sub(fencePatStr, "", ·)`: scan left to right; at each position take
the match the engine prefers (the head of `reMatch`'s result), drop it, and
continue after it; otherwise keep the character and move on.  The pattern
always consumes at least `"``​`"`, so every match shortens the input; the
fuel is an upper bound on the number of steps. -/
def subFenceGo : Nat → Option Char → List Char → List Char
  | 0, _, s => s
  | _ + 1, _, [] => []
  | fuel + 1, prev, c :: rest =>
      match reMatch (reFuel fenceRE (c :: rest)) fenceRE prev (c :: rest) with
      | [] => c :: subFenceGo fuel (some c) rest
      | (p, s') :: _ =>
          if s'.length < (c :: rest).length then subFenceGo fuel p s'
          else c :: subFenceGo fuel (some c) rest

/-- Strip markdown code fences, as the `re.sub` in `_extract_json_array`. -/
def subFence (s : String) : String :=
  ⟨subFenceGo (s.data.length + 1) none s.data⟩

/-- The bracket-depth scan of `_extract_json_array`: starting at the first
`[`, accumulate characters, incrementing depth at `[` and decrementing at
`]`, stopping inclusively when depth returns to zero.  `none` if it never
does. -/
def scanArray : List Char → Int → List Char → Option (List Char)
  | [], _, _ => none
  | c :: rest, depth, acc =>
      if c = '[' then scanArray rest (depth + 1) (acc ++ [c])
      else if c = ']' then
        if depth - 1 = 0 then some (acc ++ [c])
        else scanArray rest (depth - 1) (acc ++ [c])
      else scanArray rest depth (acc ++ [c])

/-- `_extract_json_array` (engine.py lines 39-67): strip code fences, trim,
find the first `[`, and scan to the matching `]` by depth counting. -/
def extractJsonArray (text : String) : Except PyErr String :=
  let t := pyStrip (subFence text)
  let cs := t.data
  let pre := cs.takeWhile (fun c => c ≠ '[')
  if pre.length = cs.length then
    .error (.valueError "No JSON array found in response")
  else
    match scanArray (cs.drop pre.length) 0 [] with
    | some seg => .ok ⟨seg⟩
    | none => .error (.valueError "Unbalanced brackets in JSON array")

/-! ### The deterministic scorer (src/filters/scorer.py) -/

/-- The `HIGH_SIGNAL_PATTERNS` table of src/filters/scorer.py, patterns verbatim. -/
def HIGH_SIGNAL_PATTERNS : List (String × Int) := [
  ("\\bbreaking\\s+change", 25),
  ("\\bdeprecate[ds]?\\b", 20),
  ("\\bmigrat(e|ion|ing)\\b", 15),
  ("\\bremov(e[ds]?|ing)\\b.\x7b0,30\x7d\\b(api|support|feature)", 15),
  ("\\bend[- ]?of[- ]?life\\b", 20),
  ("\\broll(ed)?\\s*back\\b", 25),
  ("\\breverted?\\b", 20),
  ("\\bpost[- ]?mortem\\b", 30),
  ("\\bincident\\s+(report|review)\\b", 25),
  ("\\boutage\\b", 20),
  ("\\bfail(ed|ure|ing)\\b", 10),
  ("\\bregression\\b", 15),
  ("\\brewrit(e|ten|ing)\\b", 15),
  ("\\brearchitect", 15),
  ("\\bfrom\\s+scratch\\b", 10),
  ("\\bmajor\\s+(version|release|update)\\b", 10),
  ("\\bv\\d+\\.0\\.0\\b", 10),
  ("\\bfrustrat(ed|ing|ion)\\b", 10),
  ("\\bworkaround\\b", 10),
  ("\\bbug\\b.*\\b(critical|severe|major)\\b", 15),
  ("\\bsecurity\\s+(vulnerabilit|advis|patch|fix)", 20),
  ("\\bCVE-\\d\x7b4\x7d", 20),
  ("\\bperformance\\s+(regression|degradation|issue)", 15),
  ("\\bmemory\\s+leak\\b", 15),
  ("\\b\\d+x\\s+(faster|slower)\\b", 10),
  ("\\bbenchmark", 8),
  ("\\barchitecture\\s+decision\\b", 10),
  ("\\blessons?\\s+learned\\b", 15),
  ("\\bwhy\\s+we\\s+(chose|switched|moved|left|abandoned)\\b", 15)
]

/-- The `ENTERPRISE_SIGNAL_PATTERNS` table of src/filters/scorer.py, patterns verbatim. -/
def ENTERPRISE_SIGNAL_PATTERNS : List (String × Int) := [
  ("\\bi\\s+wish\\s+(there\\s+was|there\\s+were|we\\s+had|we\\s+could)\\b", 15),
  ("\\bi\\s+wish\\s+\\w+\\s+had\\b", 20),
  ("\\bwhy\\s+(doesn't|can't|won't|isn't)\\b", 10),
  ("\\bfeature\\s+request\\b", 15),
  ("\\bwould\\s+be\\s+(great|nice|helpful|awesome)\\s+(if|to)\\b", 10),
  ("\\bmissing\\s+feature\\b", 20),
  ("\\bno\\s+(way|option|ability)\\s+to\\b", 15),
  ("\\bneeds?\\s+(a|an|better)\\s+(way|option|tool|solution)\\b", 15),
  ("\\bcan't\\s+believe\\s+there's\\s+no\\b", 25),
  ("\\b(github\\s+)?actions?\\s+(is|are)\\s+(slow|broken|flaky|unreliable|painful)", 25),
  ("\\bworkflow\\s+(is|keeps?)\\s+(fail|break|timeout|slow|flaky)", 20),
  ("\\bCI\\s+(is|keeps?)\\s+(slow|flaky|broken|failing|unreliable)", 20),
  ("\\bpipeline\\s+(is|keeps?)\\s+(slow|break|fail|flaky)", 15),
  ("\\bactions?\\s+(timeout|timed?\\s+out)\\b", 15),
  ("\\brunner\\s+(is|are)\\s+(slow|unavailable|down)\\b", 15),
  ("\\bself[- ]hosted\\s+runner", 10),
  ("\\bworkflow\\s+(yaml|yml|syntax|config)\\b.*\\b(confus|complex|hard|painful)", 15),
  ("\\bcache\\s+(miss|invalid|not\\s+work|broken|slow)\\b", 15),
  ("\\bartifact\\s+(upload|download)\\s+(slow|fail|broken|limit)\\b", 15),
  ("\\bmanual(ly)?\\s+(approv|review|deploy|merge|tag|release|update|bump)", 15),
  ("\\brepetitive\\s+(task|step|process|workflow|work)\\b", 15),
  ("\\btoil\\b", 10),
  ("\\bautomat(e|ion|ically)\\b.*\\b(wish|should|want|need|could)\\b", 15),
  ("\\bbot\\s+(that|to|for|which)\\s+\\w+", 10),
  ("\\bcode\\s+review\\s+(is|takes?|slow|painful|bottleneck|broken|tedious)", 25),
  ("\\bPR\\s+(review|approval)\\s+(is|takes?|slow|blocked|bottleneck|waiting)", 25),
  ("\\breview\\s+fatigue\\b", 20),
  ("\\bstale\\s+PR[s]?\\b", 15),
  ("\\bmerge\\s+(conflict[s]?|queue|hell|nightmare)\\b", 15),
  ("\\bcheck[s]?\\s+(are|is)\\s+(slow|redundant|flaky|failing)\\b", 15),
  ("\\bCODEOWNERS\\b.*\\b(broken|doesn't|wrong|confus|limit|problem|issue|pain)", 20),
  ("\\bCODEOWNERS\\b", 10),
  ("\\bauto[- ]?merge\\b", 10),
  ("\\bmerge\\s+queue\\b", 10),
  ("\\bzero[- ]day\\b", 25),
  ("\\bcritical\\s+vulnerabilit", 25),
  ("\\bransomware\\b", 15),
  ("\\bpatch\\s+management\\b", 20),
  ("\\bsecurity\\s+(posture|baseline|hardening)\\b", 15),
  ("\\bthreat\\s+(model|detection|intelligence)\\b", 15),
  ("\\bpenetration\\s+test", 10),
  ("\\bsecurity\\s+audit\\b", 20),
  ("\\bincident\\s+response\\b", 15),
  ("\\bvulnerability\\s+(manage|scan|remediat|priorit)", 15),
  ("\\bSOC\\s*2\\b", 20),
  ("\\bSOC\\s*[12]\\s+type\\s+[12]\\b", 25),
  ("\\bISO\\s*27001\\b", 20),
  ("\\bHIPAA\\b", 20),
  ("\\bGDPR\\b", 15),
  ("\\bFedRAMP\\b", 20),
  ("\\bPCI[- ]DSS\\b", 20),
  ("\\bcompliance\\s+(automation|drift|monitoring|report|check|audit|gap|requirement|polic)", 20),
  ("\\baudit\\s+(trail|log|evidence|report)\\b", 15),
  ("\\bpolicy[- ]as[- ]code\\b", 20),
  ("\\bregulatory\\s+(compliance|requirement)\\b", 15),
  ("\\bcompliance\\s+(violation|finding)\\b", 20),
  ("\\bterraform\\b.*\\b(drift|state|pain|broken|slow|issue|problem)\\b", 15),
  ("\\bterraform\\b", 8),
  ("\\binfrastructure[- ]as[- ]code\\b", 10),
  ("\\bIaC\\b", 10),
  ("\\bkubernetes\\b.*\\b(pain|complex|hard|config|security|cost)\\b", 15),
  ("\\bk8s\\b.*\\b(pain|complex|hard|config|security|cost)\\b", 15),
  ("\\bhelm\\b.*\\b(chart|pain|complex|broken)\\b", 10),
  ("\\bansible\\b.*\\b(pain|slow|complex|broken)\\b", 10),
  ("\\bconfiguration\\s+(drift|management|sprawl)\\b", 15),
  ("\\bcloud\\s+(cost|spend|waste|optimization|governance)\\b", 15),
  ("\\bFinOps\\b", 15),
  ("\\bcloud\\s+native\\b.*\\b(security|compliance|governance)\\b", 10),
  ("\\bobservability\\b", 10),
  ("\\bmonitoring\\s+(gap|blind\\s+spot|alert\\s+fatigue)\\b", 15),
  ("\\balert\\s+fatigue\\b", 20),
  ("\\bon[- ]call\\s+(rotation|burden|fatigue|pain)\\b", 15),
  ("\\bincident\\s+(management|coordination|retrospective)\\b", 15),
  ("\\bSLO\\b.*\\b(track|monitor|breach|burn)\\b", 15),
  ("\\bSLI\\b.*\\b(defin|measur|track)\\b", 10),
  ("\\bmean\\s+time\\s+to\\s+(recover|detect|resolve)\\b", 15),
  ("\\bMTTR\\b", 10),
  ("\\bsecret[s]?\\s+(leak|expos|rotat|scan|detect|manage)", 20),
  ("\\bsecrets?\\s+management\\b", 15),
  ("\\bvault\\b.*\\b(pain|complex|config|issue)\\b", 10),
  ("\\bsecret\\s+rotation\\b", 15),
  ("\\bcredential\\s+(leak|rotat|manag|sprawl)\\b", 15),
  ("\\bAPI\\s+key\\s+(rotat|manag|leak|expos)\\b", 15),
  ("\\bSBOM\\b", 15),
  ("\\bsupply\\s+chain\\s+(security|attack|risk|integrity)", 20),
  ("\\bdependency\\s+(confusion|hijack)\\b", 20),
  ("\\bpackage\\s+(integrity|provenance|signing)\\b", 15),
  ("\\bSLSA\\b", 15),
  ("\\bsoftware\\s+composition\\s+analysis\\b", 15),
  ("\\bSCA\\b.*\\b(tool|scan|result)\\b", 10),
  ("\\bdependency\\s+(vulnerabilit|audit|scan|update|hell|management)", 20),
  ("\\blicense\\s+(compliance|check|scan|violation|audit)", 15),
  ("\\bsecret\\s+scanning\\b.*\\b(miss|false|limit|doesn't|not\\s+enough)", 20),
  ("\\bdependabot\\b.*\\b(slow|noisy|miss|doesn't|broken|limit|annoying)", 20),
  ("\\baccess\\s+(control|management|review|governance)\\b", 15),
  ("\\bprivilege\\s+(escalation|management|creep)\\b", 20),
  ("\\bleast\\s+privilege\\b", 15),
  ("\\bIAM\\b.*\\b(complex|pain|audit|review)\\b", 15),
  ("\\bSSO\\b.*\\b(integration|pain|issue|broken)\\b", 10),
  ("\\bRBAC\\b", 10),
  ("\\bflaky\\s+test", 20),
  ("\\btest\\s+(coverage|gap|flak|automation|infrastructure)\\b", 15),
  ("\\btesting\\s+(pain|bottleneck|slow|manual|burden)\\b", 15),
  ("\\bcode\\s+quality\\b.*\\b(enforce|automat|gate|check)\\b", 15),
  ("\\bstatic\\s+analysis\\b", 10),
  ("\\bSAST\\b", 10),
  ("\\bDAST\\b", 10),
  ("\\btechnical\\s+debt\\b", 10),
  ("\\bcode\\s+coverage\\b.*\\b(enforce|requir|gate|low)\\b", 15),
  ("\\bdeveloper\\s+productivity\\b", 10),
  ("\\bengineering\\s+velocity\\b", 10),
  ("\\bdeveloper\\s+(platform|portal|self[- ]service)\\b", 15),
  ("\\bplatform\\s+engineering\\b", 15),
  ("\\binternal\\s+developer\\s+platform\\b", 15),
  ("\\bgolden\\s+path\\b", 10),
  ("\\bdeploy\\s+(frequency|lead\\s+time|time)\\b", 10),
  ("\\bDORA\\s+metrics\\b", 20),
  ("\\bdeveloper\\s+experience\\b", 10),
  ("\\bDX\\b\\s+(is|sucks|poor|bad|terrible|awful|needs)", 20),
  ("\\bonboarding\\s+(is|takes?|slow|painful|difficult|hard|complex)", 15),
  ("\\bdev\\s+(environment|setup|config)\\s+(is|takes?|painful|slow|broken|complex)", 15),
  ("\\b(doesn't|don't|can't|no)\\s+(integrat|connect|sync|work\\s+with)\\b", 20),
  ("\\bmissing\\s+integration\\b", 20),
  ("\\b(jira|linear|notion|slack|teams|discord)\\s+(integration|sync|connect|bridge)", 15),
  ("\\bno\\s+(native|built[- ]?in)\\s+(support|integration|feature)\\b", 20),
  ("\\bAPI\\s+(limitation|missing|gap|doesn't|insufficient|rate\\s+limit)", 15),
  ("\\bwebhook[s]?\\s+(missing|unreliable|limitation|delay|broken)", 15),
  ("\\bmonorepo\\b.*\\b(pain|slow|problem|issue|hard|scale|limit|doesn't)", 15),
  ("\\bmonorepo\\b", 8),
  ("\\bcode\\s+own(er|ership)\\b.*\\b(confus|broken|limit|doesn't|wrong|pain)", 15),
  ("\\blarge\\s+(repo|repository|codebase)\\b.*\\b(slow|pain|problem|scale)", 15),
  ("\\bnotification[s]?\\s+(noise|overload|flood|too\\s+many|useless|overwhelm)", 20),
  ("\\brelease\\s+(process|management|automation)\\b.*\\b(pain|manual|tedious|complex)", 15),
  ("\\bchangelog\\s+(generat|automat|maintain)\\b", 10),
  ("\\brelease\\s+notes?\\b.*\\b(manual|automat|generat|tedious)", 10)
]

/-- The `LOW_SIGNAL_PATTERNS` table of src/filters/scorer.py, patterns verbatim. -/
def LOW_SIGNAL_PATTERNS : List (String × Int) := [
  ("\\bexcited\\s+to\\s+announce\\b", -15),
  ("\\bgame[- ]?changer\\b", -20),
  ("\\brevolution(ary|ize)\\b", -15),
  ("\\bunlock\\s+(the\\s+)?power\\b", -15),
  ("\\b10x\\s+(developer|engineer|productivity)\\b", -20),
  ("\\bsynerg", -20),
  ("\\bdelighted\\b", -10),
  ("\\bthis\\s+is\\s+huge\\b", -10),
  ("\\byou\\s+won't\\s+believe\\b", -20),
  ("\\bmind[- ]?blow(n|ing)\\b", -15),
  ("\\bhot\\s+take\\b", -10),
  ("\\bmy\\s+thoughts\\s+on\\b", -5),
  ("\\bunpopular\\s+opinion\\b", -10),
  ("\\bthread\\s*[🧵⬇️↓]\\s*$", -10),
  ("\\bwe're\\s+hiring\\b", -15),
  ("\\bjoin\\s+our\\s+team\\b", -15),
  ("\\bcheck\\s+out\\s+my\\s+(app|action|tool|project|extension)\\b", -20),
  ("\\bjust\\s+(published|released|launched|shipped)\\s+(my|our|a)\\s+(app|action|tool)\\b", -15),
  ("\\bintroducing\\s+(my|our)\\s+(new\\s+)?(app|action|tool)\\b", -15),
  ("\\bshow\\s+HN\\b", -5),
  ("\\b(love|loving)\\s+(this|the)\\s+(tool|app|action)\\b", -10),
  ("\\bbest\\s+(tool|app|action)\\s+(I've|i've|ever)\\b", -10),
  ("\\bstep[- ]by[- ]step\\s+(guide|tutorial)\\b", -10),
  ("\\bbeginner'?s?\\s+guide\\b", -10)
]


/-- `Source` (src/models.py): the closed set of collector source tags. -/
inductive Source where
  | github_release : Source
  | github_issue : Source
  | github_discussion : Source
  | hacker_news : Source
  | rss : Source
  | nvd_cve : Source
  deriving Repr, DecidableEq

/-- `Source.value`, the string tag of each enum member. -/
def Source.value : Source → String
  | .github_release => "github_release"
  | .github_issue => "github_issue"
  | .github_discussion => "github_discussion"
  | .hacker_news => "hacker_news"
  | .rss => "rss"
  | .nvd_cve => "nvd_cve"

/-- `Item` (src/models.py): one collected content unit.  `metadata` is a
Python dict of source-specific values; `score` is a number because Python
does not constrain what the arithmetic in the scorer produces (it is an
integer whenever the metadata holds integers).  `collected_at` is kept
opaque. -/
structure Item where
  source : Source
  source_id : String
  url : String
  title : String
  body : String
  metadata : List (String × JVal)
  collected_at : String
  score : Rat
  deriving DecidableEq

/-- `_pattern_score` (scorer.py lines 281-298): case-fold the text, test
every pattern of the three tables independently, and sum the deltas of
those that match. -/
def patternScore (text : String) : Int :=
  let tl := pyLowerStr text
  (HIGH_SIGNAL_PATTERNS.foldl
      (fun acc p => if searchPat p.1 tl then acc + p.2 else acc) 0)
  + (ENTERPRISE_SIGNAL_PATTERNS.foldl
      (fun acc p => if searchPat p.1 tl then acc + p.2 else acc) 0)
  + (LOW_SIGNAL_PATTERNS.foldl
      (fun acc p => if searchPat p.1 tl then acc + p.2 else acc) 0)

/-- Python `v // d` for a metadata value and a positive integer literal
(`TypeError` unless the value is a number; `bool` counts as a number). -/
def pyFloorDiv (v : JVal) (d : Int) : Except PyErr Rat :=
  match v with
  | .int n => .ok ((n.fdiv d : Int) : Rat)
  | .bool b => .ok (((if b then (1:Int) else 0).fdiv d : Int) : Rat)
  | .float q => .ok ((q.num.fdiv ((q.den : Int) * d) : Int) : Rat)
  | other => .error (.typeError
      ("unsupported operand type(s) for //: '" ++ other.typeName ++ "' and 'int'"))

/-- Python `v >= bound` for a metadata value against a numeric literal
(`TypeError` unless the value is a number). -/
def pyGe (v : JVal) (bound : Rat) : Except PyErr Bool :=
  match v with
  | .int n => .ok (bound ≤ (n : Rat))
  | .bool b => .ok (bound ≤ (if b then (1:Rat) else 0))
  | .float q => .ok (bound ≤ q)
  | other => .error (.typeError
      ("'>=' not supported between instances of '" ++ other.typeName ++ "' and 'int'"))

/-- Python iteration `for l in v` (lists yield elements, strings yield
one-character strings, dicts yield keys, anything else raises). -/
def pyIter (v : JVal) : Except PyErr (List JVal) :=
  match v with
  | .arr xs => .ok xs
  | .str s => .ok (s.data.map (fun c => .str ⟨[c]⟩))
  | .obj fs => .ok (fs.map (fun kv => .str kv.1))
  | other => .error (.typeError ("'" ++ other.typeName ++ "' object is not iterable"))

/-- `any(l.lower() in labelSet for l in v)` with Python's lazy `any` (the
generator stops at the first hit, so a malformed later element is never
touched). -/
def anyLowerIn (xs : List JVal) (labelSet : List String) : Except PyErr Bool :=
  match xs with
  | [] => .ok false
  | v :: rest => do
      let s ← pyLowerVal v
      if labelSet.contains s then .ok true else anyLowerIn rest labelSet

/-- The `high_signal_labels` set of `_engagement_score`. -/
def high_signal_labels : List String :=
  ["bug", "breaking", "regression", "security", "critical"]

/-- The `opportunity_labels` set of `_engagement_score` (same set at both
use sites). -/
def opportunity_labels : List String :=
  ["enhancement", "feature-request", "feature", "feature request",
   "help-wanted", "help wanted", "proposal", "rfc"]

/-- The `high_signal_categories` set of the discussion branch. -/
def high_signal_categories : List String :=
  ["ideas", "feature request", "feature requests",
   "feedback", "feature", "enhancements"]

/-- Exact rational addition, via `Rat.normalize` (which, unlike the
`@[irreducible]` `Rat.add` of the library, evaluates inside the kernel).
This is Python's `+` on numbers. -/
def ratAdd (a b : Rat) : Rat :=
  Rat.normalize (a.num * b.den + b.num * a.den) (a.den * b.den)
    (Nat.mul_ne_zero a.den_nz b.den_nz)

/-- Python's two-argument `min` on numbers (computable on `Rat`). -/
def pyMin (a b : Rat) : Rat := if b < a then b else a

/-- Python's two-argument `max` on numbers (computable on `Rat`). -/
def pyMax (a b : Rat) : Rat := if a < b then b else a

/-- `_engagement_score` (scorer.py lines 301-375): the source-specific
engagement heuristics, with Python's dynamic-typing failures surfaced as
the exceptions the interpreter would raise. -/
def engagementScore (item : Item) : Except PyErr Rat := do
  let meta := item.metadata
  match item.source with
  | .github_issue => do
      let reactions := dictGet meta "reactions" (.int 0)
      let comments := dictGet meta "comments" (.int 0)
      let r ← pyFloorDiv reactions 5
      let c ← pyFloorDiv comments 3
      let base := ratAdd (pyMin r 15) (pyMin c 10)
      let labels ← pyIter (dictGet meta "labels" (.arr []))
      let hs ← anyLowerIn labels high_signal_labels
      let os ← anyLowerIn labels opportunity_labels
      pure (ratAdd (ratAdd base (if hs then 15 else 0)) (if os then 10 else 0))
  | .github_release =>
      pure (if (dictGet meta "prerelease" .null).truthy then -5 else 0)
  | .github_discussion => do
      let upvotes := dictGet meta "upvotes" (.int 0)
      let comments := dictGet meta "comments" (.int 0)
      let u ← pyFloorDiv upvotes 3
      let c ← pyFloorDiv comments 5
      let base := ratAdd (pyMin u 20) (pyMin c 10)
      let unanswered ←
        if !(dictGet meta "has_answer" (.bool true)).truthy then do
          let ge ← pyGe upvotes 10
          pure (if ge then (15 : Rat) else 0)
        else pure (0 : Rat)
      let category ← pyLowerVal (dictGet meta "category" (.str ""))
      let cat : Rat := if high_signal_categories.contains category then 10 else 0
      let labels ← pyIter (dictGet meta "labels" (.arr []))
      let os ← anyLowerIn labels opportunity_labels
      pure (ratAdd (ratAdd (ratAdd base unanswered) cat) (if os then 10 else 0))
  | .hacker_news => do
      let hnScore := dictGet meta "score" (.int 0)
      let comments := dictGet meta "comments" (.int 0)
      let h ← pyFloorDiv hnScore 50
      let c ← pyFloorDiv comments 30
      let kw : Rat := if (dictGet meta "search_keyword" .null).truthy then 5 else 0
      pure (ratAdd (ratAdd (pyMin h 15) (pyMin c 10)) kw)
  | .nvd_cve => do
      let cvss := dictGet meta "cvss_score" (.int 0)
      let ge9 ← pyGe cvss 9
      if ge9 then pure 20
      else do
        let ge7 ← pyGe cvss 7
        if ge7 then pure 15
        else do
          let ge4 ← pyGe cvss 4
          pure (if ge4 then 5 else 0)
  | .rss => pure 0

/-- `_body_quality_score` (scorer.py lines 378-389). -/
def bodyQualityScore (item : Item) : Int :=
  let bodyLen := (pyStrip item.body).length
  if bodyLen < 50 then -10
  else if bodyLen < 200 then 0
  else if bodyLen < 1000 then 5
  else 10

/-- `score_item` (scorer.py lines 392-407): base 20 plus the three deltas,
clamped to `[0, 100]`, written back onto the item. -/
def scoreItem (item : Item) : Except PyErr Item := do
  let base : Rat := 20
  let text := item.title ++ "\n" ++ item.body
  let pattern := patternScore text
  let engagement ← engagementScore item
  let quality := bodyQualityScore item
  let total := ratAdd (ratAdd (ratAdd base (pattern : Rat)) engagement) (quality : Rat)
  pure { item with score := pyMax 0 (pyMin 100 total) }

/-- Stable insertion into a list sorted descending by score (Python's
stable sort places an element after all earlier elements of greater or
equal score). -/
def insertByScore (x : Item) : List Item → List Item
  | [] => [x]
  | y :: ys => if y.score < x.score then x :: y :: ys else y :: insertByScore x ys

/-- Stable descending sort by score. -/
def sortByScoreDesc (items : List Item) : List Item :=
  items.foldl (fun acc x => insertByScore x acc) []

/-- `filter_items` (scorer.py lines 410-415): score every item, keep those
with `score >= threshold`, sort descending by score. -/
def filterItems (items : List Item) (threshold : Int) : Except PyErr (List Item) := do
  let scored ← items.mapM scoreItem
  let filtered := scored.filter (fun it => (threshold : Rat) ≤ it.score)
  pure (sortByScoreDesc filtered)

/-! ### `json.loads` -/

/-- JSON whitespace. -/
def jsonWs (c : Char) : Bool :=
  c == ' ' || c == '\t' || c == '\n' || c == '\r'

/-- Decode one `\uXXXX` hex quadruple. -/
def hexQuad? (cs : List Char) : Option (Char × List Char) :=
  match cs with
  | a :: b :: c :: d :: rest =>
      let hv : Char → Option Nat := fun ch =>
        if ch.isDigit then some (ch.toNat - '0'.toNat)
        else if 'a' ≤ ch && ch ≤ 'f' then some (ch.toNat - 'a'.toNat + 10)
        else if 'A' ≤ ch && ch ≤ 'F' then some (ch.toNat - 'A'.toNat + 10)
        else none
      match hv a, hv b, hv c, hv d with
      | some x, some y, some z, some w =>
          some (Char.ofNat (((x * 16 + y) * 16 + z) * 16 + w), rest)
      | _, _, _, _ => none
  | _ => none

/-- Parse the remainder of a JSON string literal (after the opening quote). -/
def parseJsonString : Nat → List Char → Option (String × List Char)
  | 0, _ => none
  | _ + 1, [] => none
  | fuel + 1, c :: rest =>
      if c == '"' then some ("", rest)
      else if c == '\\' then
        match rest with
        | [] => none
        | e :: rest' =>
            let dec : Option (Char × List Char) :=
              match e with
              | '"' => some ('"', rest')
              | '\\' => some ('\\', rest')
              | '/' => some ('/', rest')
              | 'b' => some ('\x08', rest')
              | 'f' => some ('\x0c', rest')
              | 'n' => some ('\n', rest')
              | 'r' => some ('\r', rest')
              | 't' => some ('\t', rest')
              | 'u' => hexQuad? rest'
              | _ => none
            match dec with
            | some (ch, rest'') => do
                let (s, restF) ← parseJsonString fuel rest''
                pure (⟨ch :: s.data⟩, restF)
            | none => none
      else do
        let (s, restF) ← parseJsonString fuel rest
        pure (⟨c :: s.data⟩, restF)

/-- Parse a JSON number.  Integers (no fraction, no exponent) decode to
Python `int`, everything else to `float`, as `json.loads` does. -/
def parseJsonNumber (cs : List Char) : Option (JVal × List Char) :=
  let (sign, cs1) : Int × List Char :=
    match cs with
    | '-' :: rest => (-1, rest)
    | _ => (1, cs)
  let ds := cs1.takeWhile Char.isDigit
  if ds.isEmpty then none
  else
    let intPart : Int := ds.foldl (fun acc c => acc * 10 + (c.toNat - '0'.toNat : Int)) 0
    let cs2 := cs1.drop ds.length
    let (fracDigits, cs3) : List Char × List Char :=
      match cs2 with
      | '.' :: rest => (rest.takeWhile Char.isDigit, rest.drop (rest.takeWhile Char.isDigit).length)
      | _ => ([], cs2)
    if cs2 ≠ cs3 && fracDigits.isEmpty then none
    else
      let (expVal, hasExp, cs4) : Int × Bool × List Char :=
        match cs3 with
        | e :: rest =>
            if e == 'e' || e == 'E' then
              let (esign, rest1) : Int × List Char :=
                match rest with
                | '+' :: r => (1, r)
                | '-' :: r => (-1, r)
                | _ => (1, rest)
              let eds := rest1.takeWhile Char.isDigit
              if eds.isEmpty then (0, false, cs3)
              else
                (esign * eds.foldl (fun acc c => acc * 10 + (c.toNat - '0'.toNat : Int)) 0,
                 true, rest1.drop eds.length)
            else (0, false, cs3)
        | [] => (0, false, cs3)
      let isFloat := !fracDigits.isEmpty || hasExp
      if !isFloat then some (.int (sign * intPart), cs2)
      else
        let mantissa : Int :=
          fracDigits.foldl (fun acc c => acc * 10 + (c.toNat - '0'.toNat : Int)) intPart
        let scale : Int := (fracDigits.length : Int) - expVal
        let q : Rat :=
          if 0 ≤ scale then
            Rat.normalize (sign * mantissa) (10 ^ scale.toNat)
              (by positivity)
          else
            Rat.normalize (sign * mantissa * 10 ^ (-scale).toNat) 1 one_ne_zero
        some (.float q, cs4)

mutual

/-- Parse one JSON value. -/
def parseJsonValue : Nat → List Char → Option (JVal × List Char)
  | 0, _ => none
  | fuel + 1, cs =>
      let cs := cs.dropWhile jsonWs
      match cs with
      | '"' :: rest => do
          let (s, rest') ← parseJsonString (fuel + 1) rest
          pure (JVal.str s, rest')
      | '[' :: rest => parseJsonArrayBody fuel (rest.dropWhile jsonWs)
      | '\x7b' :: rest => parseJsonObjectBody fuel (rest.dropWhile jsonWs)
      | 't' :: 'r' :: 'u' :: 'e' :: rest => some (.bool true, rest)
      | 'f' :: 'a' :: 'l' :: 's' :: 'e' :: rest => some (.bool false, rest)
      | 'n' :: 'u' :: 'l' :: 'l' :: rest => some (.null, rest)
      | _ => parseJsonNumber cs

/-- Parse an array body after `[` (leading whitespace consumed). -/
def parseJsonArrayBody : Nat → List Char → Option (JVal × List Char)
  | 0, _ => none
  | fuel + 1, cs =>
      match cs with
      | ']' :: rest => some (.arr [], rest)
      | _ => do
          let (v, cs1) ← parseJsonValue fuel cs
          parseJsonArrayRest fuel [v] (cs1.dropWhile jsonWs)

/-- Parse the rest of an array, after one or more elements. -/
def parseJsonArrayRest : Nat → List JVal → List Char → Option (JVal × List Char)
  | 0, _, _ => none
  | fuel + 1, acc, cs =>
      match cs with
      | ']' :: rest => some (.arr acc.reverse, rest)
      | ',' :: rest => do
          let (v, cs1) ← parseJsonValue fuel rest
          parseJsonArrayRest fuel (v :: acc) (cs1.dropWhile jsonWs)
      | _ => none

/-- Parse an object body after `{` (leading whitespace consumed). -/
def parseJsonObjectBody : Nat → List Char → Option (JVal × List Char)
  | 0, _ => none
  | fuel + 1, cs =>
      match cs with
      | '\x7d' :: rest => some (.obj [], rest)
      | _ => do
          let (k, v, cs1) ← parseJsonMember fuel cs
          parseJsonObjectRest fuel (dictInsert [] k v) (cs1.dropWhile jsonWs)

/-- Parse one `"key": value` member. -/
def parseJsonMember : Nat → List Char → Option (String × JVal × List Char)
  | 0, _ => none
  | fuel + 1, cs =>
      match cs.dropWhile jsonWs with
      | '"' :: rest => do
          let (k, cs1) ← parseJsonString (fuel + 1) rest
          match cs1.dropWhile jsonWs with
          | ':' :: cs2 => do
              let (v, cs3) ← parseJsonValue fuel cs2
              pure (k, v, cs3)
          | _ => none
      | _ => none

/-- Parse the rest of an object, after one or more members (`json.loads`
keeps the first position of a repeated key but its last value). -/
def parseJsonObjectRest :
    Nat → List (String × JVal) → List Char → Option (JVal × List Char)
  | 0, _, _ => none
  | fuel + 1, acc, cs =>
      match cs with
      | '\x7d' :: rest => some (.obj acc, rest)
      | ',' :: rest => do
          let (k, v, cs1) ← parseJsonMember fuel rest
          parseJsonObjectRest fuel (dictInsert acc k v) (cs1.dropWhile jsonWs)
      | _ => none

end

/-- `json.loads`: parse one JSON document, requiring only whitespace after
it.  Failures are `json.JSONDecodeError`s (the message is abbreviated; the
engine's control flow only depends on the exception's class). -/
def jsonLoads (s : String) : Except PyErr JVal :=
  match parseJsonValue (s.length + 1) s.data with
  | some (v, rest) =>
      if (rest.dropWhile jsonWs).isEmpty then .ok v
      else .error (.jsonDecodeError "Extra data")
  | none => .error (.jsonDecodeError "Expecting value")

/-! ### Opportunity model and `parse_opportunities_json`
(src/models.py; src/synthesizer/engine.py lines 70-172) -/

/-- `EvidenceRef` (src/models.py). -/
structure EvidenceRef where
  source : String
  item_title : String
  url : String
  score : Int
  deriving Repr, DecidableEq

/-- `Opportunity` (src/models.py).  `competition_notes` is kept dynamic
because the parser stores whatever value the JSON held (it is never
validated); `generated_at` is omitted because none of the embedded
operations read it (persistence timestamps rows with its own clock);
`run_id` is `none` until persistence assigns it. -/
structure Opportunity where
  id : String
  title : String
  pain : String
  target_buyer : String
  solution_shape : String
  market_type : String
  effort_estimate : String
  monetization : String
  moat : String
  confidence : Int
  evidence : List EvidenceRef
  competition_notes : JVal
  run_id : Option Nat
  deriving DecidableEq

/-- `VALID_EFFORT_ESTIMATES` (engine.py line 70). -/
def VALID_EFFORT_ESTIMATES : List String := ["weekend", "1-2 weeks", "month+"]

/-- `required_str_fields` of `_validate_opportunity_dict`. -/
def required_str_fields : List String :=
  ["id", "title", "pain", "target_buyer", "solution_shape",
   "market_type", "effort_estimate", "monetization", "moat"]

/-- The check `field in d and isinstance(d[field], str) and d[field].strip()`. -/
def strFieldOk (d : List (String × JVal)) (f : String) : Bool :=
  match dictGet d f .null with
  | .str s => pyStrip s ≠ ""
  | _ => false

/-- Python `str(v)` rendering, used only inside diagnostic messages (the
`float`, `list` and `dict` renderings are abbreviated; no claim depends on
them). -/
def pyShowJVal (v : JVal) : String :=
  match v with
  | .null => "None"
  | .bool true => "True"
  | .bool false => "False"
  | .int n => toString n
  | .float q => toString q.num ++ (if q.den == 1 then ".0" else "/" ++ toString q.den)
  | .str s => s
  | .arr _ => "[...]"
  | .obj _ => "\x7b...\x7d"

/-- Numeric range test `0 <= v <= 100` on a value already known numeric. -/
def inConfidenceRange (v : JVal) : Bool :=
  match v with
  | .int n => 0 ≤ n && n ≤ 100
  | .bool _ => true
  | .float q => 0 ≤ q && q ≤ 100
  | _ => false

/-- `_validate_opportunity_dict` (engine.py lines 73-110): the list of
per-field diagnostics, in the source's order. -/
def validateOpportunityDict (d : List (String × JVal)) : List String :=
  let fieldErrs := required_str_fields.filterMap (fun f =>
    if strFieldOk d f then none
    else some ("Missing or empty required field: " ++ f))
  let confErrs :=
    if ¬ dictHas d "confidence" then ["Missing field: confidence"]
    else
      let v := dictGet d "confidence" .null
      match v with
      | .int _ | .bool _ | .float _ =>
          if inConfidenceRange v then []
          else ["confidence must be 0-100, got " ++ pyShowJVal v]
      | other => ["confidence must be an integer, got " ++ other.typeName]
  let effortErrs :=
    if dictHas d "effort_estimate" &&
        ¬ VALID_EFFORT_ESTIMATES.any
            (fun s => dictGet d "effort_estimate" .null == .str s) then
      ["effort_estimate must be one of \x7b'weekend', '1-2 weeks', 'month+'\x7d, got '"
        ++ pyShowJVal (dictGet d "effort_estimate" .null) ++ "'"]
    else []
  let evErrs :=
    match dictGet d "evidence" .null with
    | .arr evs =>
        if evs.isEmpty then ["evidence array must have at least 1 entry"]
        else
          (evs.enum.map (fun (i, ev) =>
            match ev with
            | .obj fs =>
                ["source", "item_title", "url"].filterMap (fun ef =>
                  if strFieldOk fs ef then none
                  else some ("evidence[" ++ toString i ++ "] missing field: " ++ ef))
            | _ => ["evidence[" ++ toString i ++ "] must be an object"])).flatten
    | _ => ["Missing or invalid field: evidence (must be array)"]
  fieldErrs ++ confErrs ++ effortErrs ++ evErrs

/-- The string a validated field holds (validation guarantees these fields
are strings, so the fallback is unreachable on inputs that passed). -/
def asStr (v : JVal) : String :=
  match v with
  | .str s => s
  | _ => ""

/-- The fields of an evidence entry (validation guarantees an object). -/
def evFields (v : JVal) : List (String × JVal) :=
  match v with
  | .obj fs => fs
  | _ => []

/-- The element list of the validated `evidence` value. -/
def evList (v : JVal) : List JVal :=
  match v with
  | .arr xs => xs
  | _ => []

/-- Convert one validated evidence object; `int(ev.get("score", 0))` can
still raise, because the evidence `score` type is never validated. -/
def convEvidence (ev : JVal) : Except PyErr EvidenceRef := do
  let fs := evFields ev
  let score ← pyInt (dictGet fs "score" (.int 0))
  pure { source := asStr (dictGet fs "source" (.str ""))
         item_title := asStr (dictGet fs "item_title" (.str ""))
         url := asStr (dictGet fs "url" (.str ""))
         score := score }

/-- Convert one validated opportunity object. -/
def convOpportunity (d : List (String × JVal)) : Except PyErr Opportunity := do
  let evidence ← (evList (dictGet d "evidence" (.arr []))).mapM convEvidence
  let confidence ← pyInt (dictGet d "confidence" .null)
  pure { id := asStr (dictGet d "id" .null)
         title := asStr (dictGet d "title" .null)
         pain := asStr (dictGet d "pain" .null)
         target_buyer := asStr (dictGet d "target_buyer" .null)
         solution_shape := asStr (dictGet d "solution_shape" .null)
         market_type := asStr (dictGet d "market_type" .null)
         effort_estimate := asStr (dictGet d "effort_estimate" .null)
         monetization := asStr (dictGet d "monetization" .null)
         moat := asStr (dictGet d "moat" .null)
         confidence := confidence
         evidence := evidence
         competition_notes := dictGet d "competition_notes" (.str "")
         run_id := none }

/-- The `Item {i} ({id}): ...` diagnostic line for one failed element. -/
def itemErrLine (i : Nat) (d : List (String × JVal)) (es : List String) : String :=
  "Item " ++ toString i ++ " (" ++ pyShowJVal (dictGet d "id" (.str "?"))
    ++ "): " ++ String.intercalate "; " es

/-- The element loop of `parse_opportunities_json` (engine.py lines
127-159): validate each element; collect diagnostics for failures, convert
successes (conversion exceptions propagate immediately, as in Python). -/
def parseOppsGo :
    Nat → List JVal → List Opportunity → List String →
    Except PyErr (List Opportunity × List String)
  | _, [], opps, errs => .ok (opps.reverse, errs.reverse)
  | i, item :: rest, opps, errs =>
      match item with
      | .obj d =>
          let es := validateOpportunityDict d
          if es.isEmpty then do
            let opp ← convOpportunity d
            parseOppsGo (i + 1) rest (opp :: opps) errs
          else
            parseOppsGo (i + 1) rest opps (itemErrLine i d es :: errs)
      | other =>
          parseOppsGo (i + 1) rest opps
            (("Item " ++ toString i ++ ": expected object, got " ++ other.typeName)
              :: errs)

/-- The `ValueError` message when every element failed validation. -/
def allFailedMsg (total : Nat) (errs : List String) : String :=
  "All " ++ toString total ++ " opportunities failed validation:\n"
    ++ String.intercalate "\n" errs

/-- `parse_opportunities_json` (engine.py lines 113-172). -/
def parseOpportunitiesJson (raw : String) : Except PyErr (List Opportunity) := do
  let jsonStr ← extractJsonArray raw
  let data ← jsonLoads jsonStr
  match data with
  | .arr items => do
      let (opps, allErrors) ← parseOppsGo 0 items [] []
      if ¬ allErrors.isEmpty && opps.isEmpty then
        .error (.valueError (allFailedMsg items.length allErrors))
      else
        .ok opps
  | other => .error (.valueError ("Expected JSON array, got " ++ other.typeName))

/-! ### Storage (src/storage/db.py): the tables the claims touch, modelled
as lists of rows.  `INSERT OR REPLACE` on `opportunities` follows SQLite
semantics with `PRAGMA foreign_keys=ON`: the conflicting row is deleted and
the new row inserted within one statement, so the foreign key from
`opportunity_evidence` is satisfied again at the end of the statement and
the already-inserted evidence rows survive. -/

/-- A row of the `opportunities` table (primary key `(id, run_id)`). -/
structure OppRow where
  id : String
  run_id : Nat
  title : String
  pain : String
  target_buyer : String
  solution_shape : String
  market_type : String
  effort_estimate : String
  monetization : String
  moat : String
  confidence : Int
  competition_notes : JVal
  generated_at : String
  deriving DecidableEq

/-- A row of the `opportunity_evidence` table (`rowid` is the autoincrement
primary key). -/
structure EvRow where
  rowid : Nat
  opportunity_id : String
  run_id : Nat
  source : String
  item_title : String
  url : String
  score : Int
  deriving Repr, DecidableEq

/-- A row of the `opportunity_runs` table. -/
structure RunRow where
  id : Nat
  digest_id : Option Nat
  item_count : Nat
  opportunity_count : Nat
  generated_at : String
  deriving Repr, DecidableEq

/-- A row of the `digests` table. -/
structure DigestRow where
  id : Nat
  digest_type : String
  content : String
  item_count : Nat
  generated_at : String
  deriving Repr, DecidableEq

/-- The database state (the tables the claims touch, plus the autoincrement
counters). -/
structure DB where
  digests : List DigestRow
  runs : List RunRow
  opportunities : List OppRow
  evidence : List EvRow
  nextDigestId : Nat
  nextRunId : Nat
  nextEvId : Nat
  deriving DecidableEq

/-- The empty database, as `_migrate` leaves a fresh file. -/
def DB.empty : DB := ⟨[], [], [], [], 1, 1, 1⟩

/-- `save_digest` (db.py lines 207-213). -/
def saveDigest (db : DB) (digest_type content : String) (item_count : Nat)
    (now : String) : DB :=
  { db with
    digests := db.digests ++ [⟨db.nextDigestId, digest_type, content, item_count, now⟩]
    nextDigestId := db.nextDigestId + 1 }

/-- The `opportunities` row written for one `Opportunity` in a run. -/
def oppToRow (opp : Opportunity) (run_id : Nat) (now : String) : OppRow :=
  { id := opp.id, run_id := run_id, title := opp.title, pain := opp.pain
    target_buyer := opp.target_buyer, solution_shape := opp.solution_shape
    market_type := opp.market_type, effort_estimate := opp.effort_estimate
    monetization := opp.monetization, moat := opp.moat
    confidence := opp.confidence, competition_notes := opp.competition_notes
    generated_at := now }

/-- `INSERT OR REPLACE INTO opportunities`: delete any row with the same
`(id, run_id)` primary key, then insert the new row. -/
def insertOrReplaceOpp (rows : List OppRow) (row : OppRow) : List OppRow :=
  rows.filter (fun r => !(r.id == row.id && r.run_id == row.run_id)) ++ [row]

/-- One `INSERT INTO opportunity_evidence` for opportunity `oid` in run
`rid`. -/
def addEvRow (rid : Nat) (oid : String) (acc : DB) (ev : EvidenceRef) : DB :=
  { acc with
    evidence := acc.evidence ++
      [⟨acc.nextEvId, oid, rid, ev.source, ev.item_title, ev.url, ev.score⟩]
    nextEvId := acc.nextEvId + 1 }

/-- The loop body of `save_opportunity_run` for one opportunity: the
`INSERT OR REPLACE` of its row, then the `INSERT`s of its evidence rows. -/
def addOppStep (rid : Nat) (now : String) (acc : DB) (opp : Opportunity) : DB :=
  let acc1 := { acc with
    opportunities := insertOrReplaceOpp acc.opportunities (oppToRow opp rid now) }
  opp.evidence.foldl (addEvRow rid opp.id) acc1

/-- `save_opportunity_run` (db.py lines 227-268): insert a run row, then
for each opportunity an `INSERT OR REPLACE` of its row followed by plain
`INSERT`s of its evidence rows.  Returns the new state and the `run_id`. -/
def saveOpportunityRun (db : DB) (opps : List Opportunity) (item_count : Nat)
    (digest_id : Option Nat) (now : String) : DB × Nat :=
  let run_id := db.nextRunId
  let db0 := { db with
    runs := db.runs ++ [⟨run_id, digest_id, item_count, opps.length, now⟩]
    nextRunId := run_id + 1 }
  (opps.foldl (addOppStep run_id now) db0, run_id)

/-- One `data_points` entry of a trend. -/
structure TrendPoint where
  run_id : Nat
  confidence : Int
  generated_at : String
  deriving Repr, DecidableEq

/-- One entry of `get_opportunity_trends`'s result. -/
structure Trend where
  id : String
  title : String
  data_points : List TrendPoint
  deriving Repr, DecidableEq

/-- Lexicographic (code-point) order on character lists: SQLite's byte-wise
comparison of TEXT values, restricted to the ASCII data involved. -/
def strLtB : List Char → List Char → Bool
  | [], [] => false
  | [], _ :: _ => true
  | _ :: _, [] => false
  | a :: as, b :: bs =>
      if a < b then true else if b < a then false else strLtB as bs

/-- Lexicographic (code-point) order on strings. -/
def strLt (a b : String) : Bool := strLtB a.data b.data

/-- The `ORDER BY o.id, o.generated_at ASC` key (SQLite compares TEXT
byte-wise; on the ASCII identifiers and ISO timestamps involved this is
string order). -/
def rowKeyLt (a b : OppRow) : Bool :=
  strLt a.id b.id || (a.id == b.id && strLt a.generated_at b.generated_at)

/-- Stable insertion into a list sorted ascending by `rowKeyLt`. -/
def insertRowAsc (x : OppRow) : List OppRow → List OppRow
  | [] => [x]
  | y :: ys => if rowKeyLt x y then x :: y :: ys else y :: insertRowAsc x ys

/-- Sort rows by `(id, generated_at)` ascending (stable). -/
def sortRowsAsc (rows : List OppRow) : List OppRow :=
  rows.foldl (fun acc x => insertRowAsc x acc) []

/-- The dict-building loop body of `get_opportunity_trends`: append the
row's data point to its id's entry (creating the entry at first sight, in
encounter order) and overwrite the entry's title with the row's. -/
def addTrendRow (acc : List Trend) (row : OppRow) : List Trend :=
  if acc.any (fun t => t.id == row.id) then
    acc.map (fun t =>
      if t.id == row.id then
        { t with title := row.title
                 data_points := t.data_points ++ [⟨row.run_id, row.confidence, row.generated_at⟩] }
      else t)
  else
    acc ++ [⟨row.id, row.title, [⟨row.run_id, row.confidence, row.generated_at⟩]⟩]

/-- `get_opportunity_trends` (db.py lines 393-421). -/
def getOpportunityTrends (db : DB) : List Trend :=
  (sortRowsAsc db.opportunities).foldl addTrendRow []

/-! ### The structured-report engine
(src/synthesizer/engine.py lines 24-36, 301-388, 415-435;
src/synthesizer/prompts.py; src/llm/provider.py) -/

/-- `LLMResponse` (src/llm/provider.py). -/
structure LLMResponse where
  text : String
  input_tokens : Nat
  output_tokens : Nat
  model : String
  deriving Repr, DecidableEq

/-- One `complete` request as the engine issues it. -/
structure LLMCall where
  system_prompt : String
  user_prompt : String
  temperature : Rat
  max_tokens : Nat
  deriving DecidableEq

/-- Temperature 0.2 of the first structured request. -/
def temp02 : Rat := Rat.normalize 2 10 (by norm_num)

/-- Temperature 0.1 of the repair request. -/
def temp01 : Rat := Rat.normalize 1 10 (by norm_num)

/-- Render a score the way a Python f-string renders the numbers the scorer
produces (integral values print as integers). -/
def showScore (q : Rat) : String :=
  if q.den == 1 then toString q.num
  else toString q.num ++ "/" ++ toString q.den

/-- `_format_items_for_prompt` (engine.py lines 24-36). -/
def formatItemsForPrompt (items : List Item) (max_items : Nat) : String :=
  if items.isEmpty then "(no items collected)"
  else
    String.intercalate "\n---\n" ((items.take max_items).map (fun item =>
      "[score=" ++ showScore item.score ++ "] [" ++ item.source.value ++ "] "
        ++ item.title ++ "\n  URL: " ++ item.url ++ "\n  "
        ++ (item.body.take 500) ++ "\n"))

/-- `str.format` with simple named fields: one left-to-right pass replacing
each `{key}` whose key is bound (Python substitutes fields of the template
only, never inside substituted values). -/
def pyFormatGo : Nat → List Char → List (String × String) → List Char
  | 0, cs, _ => cs
  | _ + 1, [], _ => []
  | fuel + 1, '\x7b' :: rest, args =>
      let key : List Char := rest.takeWhile (fun c => c ≠ '\x7d')
      let after := rest.drop key.length
      match after with
      | '\x7d' :: rest' =>
          match args.find? (fun kv => kv.1 == String.mk key) with
          | some kv => kv.2.data ++ pyFormatGo fuel rest' args
          | none => '\x7b' :: pyFormatGo fuel rest args
      | _ => '\x7b' :: pyFormatGo fuel rest args
  | fuel + 1, c :: rest, args => c :: pyFormatGo fuel rest args

/-- `template.format(...)` for the templates the engine renders. -/
def pyFormat (template : String) (args : List (String × String)) : String :=
  ⟨pyFormatGo (template.length + 1) template.data args⟩

/-- `_opportunities_to_text` (engine.py lines 415-435). -/
def opportunitiesToText (opportunities : List Opportunity) : String :=
  let blocks := opportunities.enum.map (fun (i, opp) =>
    let head :=
      [toString (i + 1) ++ ". " ++ opp.title ++ " (confidence: "
         ++ toString opp.confidence ++ "/100)",
       "   PAIN: " ++ opp.pain,
       "   TARGET BUYER: " ++ opp.target_buyer,
       "   SOLUTION: " ++ opp.solution_shape,
       "   MARKET: " ++ opp.market_type,
       "   EFFORT: " ++ opp.effort_estimate,
       "   MONETIZATION: " ++ opp.monetization,
       "   MOAT: " ++ opp.moat]
    let comp :=
      if opp.competition_notes.truthy then
        ["   COMPETITION: " ++ pyShowJVal opp.competition_notes]
      else []
    let evid :=
      if ¬ opp.evidence.isEmpty then
        ("   EVIDENCE (" ++ toString opp.evidence.length ++ " sources):")
          :: (opp.evidence.map (fun ev =>
                ["     - [" ++ ev.source ++ "] " ++ ev.item_title,
                 "       " ++ ev.url])).flatten
      else []
    head ++ comp ++ evid ++ [""])
  String.intercalate "\n" blocks.flatten

/-- `STRUCTURED_OPPORTUNITY_SYSTEM` (prompts.py lines 202-245), verbatim
(it is a plain string, so its doubled braces are sent literally). -/
def STRUCTURED_OPPORTUNITY_SYSTEM : String :=
  "You are an enterprise developer tool product strategist. Analyze collected signals\nto produce a prioritized, actionable opportunity report for a technical founder.\n\nFocus on \"boring\" enterprise markets — security, compliance, infrastructure, DevOps,\ntesting, observability, platform engineering — with consistent demand over 1-3 years.\n\nYou MUST respond with ONLY a valid JSON array. No markdown, no commentary, no code fences.\n\nEach element in the array represents one validated opportunity with this exact schema:\n\n\x7b\x7b\n  \"id\": \"<stable-slug, e.g. terraform-drift-detector>\",\n  \"title\": \"<short title, max 60 chars>\",\n  \"pain\": \"<specific problem with evidence citations>\",\n  \"target_buyer\": \"<who writes the check: DevOps lead / CISO / VP Eng / Platform team / CTO>\",\n  \"solution_shape\": \"<what would the product do, 2-3 sentences>\",\n  \"market_type\": \"<boring/growing or hype/crowded>\",\n  \"effort_estimate\": \"<weekend | 1-2 weeks | month+>\",\n  \"monetization\": \"<pricing model and expected ACV range>\",\n  \"moat\": \"<what makes this defensible>\",\n  \"confidence\": <integer 0-100>,\n  \"evidence\": [\n    \x7b\x7b\n      \"source\": \"<source type, e.g. github_issue, hacker_news>\",\n      \"item_title\": \"<title of the source item>\",\n      \"url\": \"<url of the source item>\",\n      \"score\": <integer signal score>\n    \x7d\x7d\n  ],\n  \"competition_notes\": \"<existing tools and why they're insufficient>\"\n\x7d\x7d\n\nRules:\n- Return 1-5 opportunities, ranked by confidence descending.\n- Only include opportunities with pain from 2+ independent sources OR single source with 50+ reactions.\n- confidence: 80+ = strong evidence from multiple sources; 50-79 = moderate; <50 = emerging signal.\n- effort_estimate must be exactly one of: \"weekend\", \"1-2 weeks\", \"month+\".\n- Each opportunity MUST have at least 1 evidence reference from the provided signals.\n- The evidence url and item_title must match actual items from the input. Do not fabricate URLs.\n- id must be a lowercase kebab-case slug, unique per opportunity.\n- Be brutally honest about competition in competition_notes.\n- If no opportunities qualify, return an empty array: []\n"

/-- `STRUCTURED_OPPORTUNITY_USER` (prompts.py lines 247-254), verbatim. -/
def STRUCTURED_OPPORTUNITY_USER : String :=
  "Here are the last 14 days of enterprise-relevant signals (scored and filtered):\n\n\x7bitems\x7d\n\nRespond with ONLY a JSON array of structured opportunities.\nNo text before or after the JSON. No markdown fences.\n"

/-- `STRUCTURED_OPPORTUNITY_REPAIR` (prompts.py lines 256-267), verbatim. -/
def STRUCTURED_OPPORTUNITY_REPAIR : String :=
  "Your previous response was not valid JSON. Here is the error:\n\n\x7berror\x7d\n\nHere is what you returned (truncated to 500 chars):\n\n\x7braw\x7d\n\nPlease fix your response. Return ONLY a valid JSON array of opportunity objects.\nNo markdown, no commentary, no code fences. Just the JSON array.\n"

/-- `str(e)` of a modelled exception. -/
def pyErrMsg : PyErr → String
  | .valueError m | .typeError m | .attributeError m
  | .jsonDecodeError m | .llmError m => m

/-- Does `except (ValueError, json.JSONDecodeError)` catch `e`?  (The first
parse attempt's handler, engine.py line 339.) -/
def caughtByFirstHandler : PyErr → Bool
  | .valueError _ | .jsonDecodeError _ => true
  | _ => false

/-- Does `except (ValueError, json.JSONDecodeError, LLMError)` catch `e`?
(The repair attempt's handler, engine.py line 357.) -/
def caughtBySecondHandler : PyErr → Bool
  | .valueError _ | .jsonDecodeError _ | .llmError _ => true
  | _ => false

/-- What one run of `structured_opportunity_report` did: the completion
requests it issued (in order), its outcome (`none` models the Python
`None` return; an `error` models an uncaught exception), and the final
database state. -/
structure ReportResult where
  calls : List LLMCall
  outcome : Except PyErr (Option (List Opportunity))
  db : DB
  deriving DecidableEq

/-- The success path of `structured_opportunity_report` after a parse
succeeded (engine.py lines 364-388): empty results return `[]` without
touching storage; otherwise a digest and the structured run are saved and
the returned opportunities carry the new `run_id`. -/
def finishReport (db : DB) (items : List Item) (opps : List Opportunity)
    (now : String) (calls : List LLMCall) : ReportResult :=
  if opps.isEmpty then ⟨calls, .ok (some []), db⟩
  else
    let text := opportunitiesToText opps
    let db1 := saveDigest db "opportunities" text items.length now
    let digest_id := (db1.digests.getLast?).map (fun r => r.id)
    let (db2, run_id) := saveOpportunityRun db1 opps items.length digest_id now
    ⟨calls, .ok (some (opps.map (fun o => { o with run_id := some run_id }))), db2⟩

/-- `structured_opportunity_report` (engine.py lines 301-388).  `items`
stands for the result of the storage query
`get_items_last_n_days(days=14, min_score=35)`; `oracle n` is the outcome
of the `n`-th `complete` call of the run (an `error` is an `LLMError`
raised by the provider); `now` is the persistence clock. -/
def structuredOpportunityReport (db : DB) (items : List Item)
    (oracle : Nat → Except String LLMResponse) (now : String) : ReportResult :=
  if items.isEmpty then ⟨[], .ok (some []), db⟩
  else
    let formatted := formatItemsForPrompt items 50
    let prompt := pyFormat STRUCTURED_OPPORTUNITY_USER [("items", formatted)]
    let call1 : LLMCall := ⟨STRUCTURED_OPPORTUNITY_SYSTEM, prompt, temp02, 3000⟩
    match oracle 0 with
    | .error _ => ⟨[call1], .ok none, db⟩
    | .ok resp =>
        let raw := resp.text
        match parseOpportunitiesJson raw with
        | .ok opps => finishReport db items opps now [call1]
        | .error e =>
            if caughtByFirstHandler e then
              let repairPrompt := pyFormat STRUCTURED_OPPORTUNITY_REPAIR
                  [("error", pyErrMsg e), ("raw", raw.take 500)]
              let call2 : LLMCall := ⟨STRUCTURED_OPPORTUNITY_SYSTEM, repairPrompt, temp01, 3000⟩
              match oracle 1 with
              | .error _ => ⟨[call1, call2], .ok none, db⟩
              | .ok resp2 =>
                  match parseOpportunitiesJson resp2.text with
                  | .ok opps2 => finishReport db items opps2 now [call1, call2]
                  | .error e2 =>
                      if caughtBySecondHandler e2 then ⟨[call1, call2], .ok none, db⟩
                      else ⟨[call1, call2], .error e2, db⟩
            else ⟨[call1], .error e, db⟩

/-! ### Specification-side auxiliary definitions used by the claims -/

/-- The bracket-scan shape `_extract_json_array` relies on: the string
starts with `[`, and counting every `[` and `]` (JSON string context is
ignored by the code), the depth first returns to zero exactly at the last
character.  For such strings the depth scan recovers the string itself. -/
def scanBalancedGo : List Char → Int → Bool
  | [], _ => false
  | c :: rest, depth =>
      let d := if c = '[' then depth + 1 else if c = ']' then depth - 1 else depth
      if c = ']' && d == 0 then rest.isEmpty
      else scanBalancedGo rest d

/-- See `scanBalancedGo`. -/
def scanBalanced (s : String) : Bool :=
  match s.data with
  | '[' :: _ => scanBalancedGo s.data 0
  | _ => false

/-- Characters that must not occur in the prose around the array for the
depth scan to find the array itself. -/
def proseSafe (c : Char) : Bool :=
  c ≠ '[' && c ≠ ']' && c ≠ '`'

/-- The compiled form of the fence pattern (checked against the parser by
`decide` in the proofs). -/
def fenceAst : RE :=
  .cat (.chr '`') (.cat (.chr '`') (.cat (.chr '`')
    (.cat (.alt (.cat (.chr 'j') (.cat (.chr 's') (.cat (.chr 'o')
        (.cat (.chr 'n') .eps)))) .eps)
      (.cat (.star (.cls [.space])) (.cat (.alt (.chr '\n') .eps) .eps)))))

/-- Does a decoded array element pass `_validate_opportunity_dict`? -/
def elemPasses (e : JVal) : Bool :=
  match e with
  | .obj d => (validateOpportunityDict d).isEmpty
  | _ => false

/-- The fields of an element known to be an object. -/
def elemFields (e : JVal) : List (String × JVal) :=
  match e with
  | .obj d => d
  | _ => []

/-- The diagnostic line `parse_opportunities_json` accumulates for one
failed element at index `i`. -/
def failLineAt (i : Nat) (e : JVal) : String :=
  match e with
  | .obj d => itemErrLine i d (validateOpportunityDict d)
  | other => "Item " ++ toString i ++ ": expected object, got " ++ other.typeName

/-- The diagnostic lines for all failing elements, indices starting at
`i`. -/
def failLinesFrom (i : Nat) : List JVal → List String
  | [] => []
  | e :: rest =>
      if elemPasses e then failLinesFrom (i + 1) rest
      else failLineAt i e :: failLinesFrom (i + 1) rest

/-- The converted records of the passing elements, in order. -/
def convertedFrom : List JVal → Except PyErr (List Opportunity)
  | [] => .ok []
  | e :: rest =>
      if elemPasses e then do
        let opp ← convOpportunity (elemFields e)
        let tail ← convertedFrom rest
        pure (opp :: tail)
      else convertedFrom rest

/-- The shapes of the exceptions `int()` raises (`pyInt`'s error cases). -/
def pyIntErrForm (e : PyErr) : Prop :=
  (∃ m, e = .typeError m) ∨
  (∃ s, e = .valueError ("invalid literal for int() with base 10: '" ++ s ++ "'"))

/-- Is a metadata value a Python `int`? -/
def isIntVal : JVal → Bool
  | .int _ => true
  | _ => false

/-- Is a metadata value a Python `str`? -/
def isStrVal : JVal → Bool
  | .str _ => true
  | _ => false

/-- Is a metadata value an `int` or a `float`? -/
def isNumVal : JVal → Bool
  | .int _ | .float _ => true
  | _ => false

/-- Is a metadata value a list of strings? -/
def isStrList : JVal → Bool
  | .arr xs => xs.all isStrVal
  | _ => false

/-- Well-typed metadata for the engagement heuristics of an item's source:
count metrics are `int`s, labels are lists of strings, the category is a
string, the CVSS score is numeric; keys may be absent (the `dictGet`
defaults are themselves well typed), and the keys only read for truthiness
(`prerelease`, `has_answer`, `search_keyword`) may hold anything. -/
def metaWellTyped (item : Item) : Bool :=
  let g := fun k d => dictGet item.metadata k d
  match item.source with
  | .github_issue =>
      isIntVal (g "reactions" (.int 0)) && isIntVal (g "comments" (.int 0))
        && isStrList (g "labels" (.arr []))
  | .github_release => true
  | .github_discussion =>
      isIntVal (g "upvotes" (.int 0)) && isIntVal (g "comments" (.int 0))
        && isStrVal (g "category" (.str "")) && isStrList (g "labels" (.arr []))
  | .hacker_news =>
      isIntVal (g "score" (.int 0)) && isIntVal (g "comments" (.int 0))
  | .nvd_cve => isNumVal (g "cvss_score" (.int 0))
  | .rss => true

/-- The trend data point of a stored row. -/
def pointOf (r : OppRow) : TrendPoint :=
  ⟨r.run_id, r.confidence, r.generated_at⟩

/-- Stable insertion sorted ascending by `generated_at` (specification-side
ordering of one id's data points). -/
def insertByGat (x : OppRow) : List OppRow → List OppRow
  | [] => [x]
  | y :: ys =>
      if strLt x.generated_at y.generated_at then x :: y :: ys
      else y :: insertByGat x ys

/-- Sort rows ascending by `generated_at`. -/
def sortByGatAsc (rows : List OppRow) : List OppRow :=
  rows.foldl (fun acc x => insertByGat x acc) []

/-! ### Concrete inputs for the claims -/

/-- C3 counterexample input: two elements that both pass validation;
the second carries the evidence score `"high"`. -/
def c3raw : String := "[\x7b\"id\":\"a\",\"title\":\"t\",\"pain\":\"p\",\"target_buyer\":\"b\",\"solution_shape\":\"s\",\"market_type\":\"m\",\"effort_estimate\":\"weekend\",\"monetization\":\"z\",\"moat\":\"w\",\"confidence\":75,\"evidence\":[\x7b\"source\":\"s\",\"item_title\":\"t\",\"url\":\"u\",\"score\":65\x7d]\x7d,\x7b\"id\":\"b\",\"title\":\"t\",\"pain\":\"p\",\"target_buyer\":\"b\",\"solution_shape\":\"s\",\"market_type\":\"m\",\"effort_estimate\":\"weekend\",\"monetization\":\"z\",\"moat\":\"w\",\"confidence\":75,\"evidence\":[\x7b\"source\":\"s\",\"item_title\":\"t\",\"url\":\"u\",\"score\":\"high\"\x7d]\x7d]"

/-- The two decoded elements of `c3raw`. -/
def c3elem1 : JVal := JVal.obj [("id", JVal.str "a"), ("title", JVal.str "t"), ("pain", JVal.str "p"), ("target_buyer", JVal.str "b"), ("solution_shape", JVal.str "s"), ("market_type", JVal.str "m"), ("effort_estimate", JVal.str "weekend"), ("monetization", JVal.str "z"), ("moat", JVal.str "w"), ("confidence", JVal.int 75), ("evidence", JVal.arr [JVal.obj [("source", JVal.str "s"), ("item_title", JVal.str "t"), ("url", JVal.str "u"), ("score", JVal.int 65)]])]

def c3elem2 : JVal := JVal.obj [("id", JVal.str "b"), ("title", JVal.str "t"), ("pain", JVal.str "p"), ("target_buyer", JVal.str "b"), ("solution_shape", JVal.str "s"), ("market_type", JVal.str "m"), ("effort_estimate", JVal.str "weekend"), ("monetization", JVal.str "z"), ("moat", JVal.str "w"), ("confidence", JVal.int 75), ("evidence", JVal.arr [JVal.obj [("source", JVal.str "s"), ("item_title", JVal.str "t"), ("url", JVal.str "u"), ("score", JVal.str "high")]])]

/-- C10 input: a fully valid element followed by one that passes
validation but whose evidence `score` is the string `"high"`. -/
def c10raw : String := "[\x7b\"id\":\"v\",\"title\":\"t\",\"pain\":\"p\",\"target_buyer\":\"b\",\"solution_shape\":\"s\",\"market_type\":\"m\",\"effort_estimate\":\"weekend\",\"monetization\":\"z\",\"moat\":\"w\",\"confidence\":75,\"evidence\":[\x7b\"source\":\"s\",\"item_title\":\"t\",\"url\":\"u\",\"score\":65\x7d]\x7d,\x7b\"id\":\"h\",\"title\":\"t\",\"pain\":\"p\",\"target_buyer\":\"b\",\"solution_shape\":\"s\",\"market_type\":\"m\",\"effort_estimate\":\"weekend\",\"monetization\":\"z\",\"moat\":\"w\",\"confidence\":75,\"evidence\":[\x7b\"source\":\"s\",\"item_title\":\"t\",\"url\":\"u\",\"score\":\"high\"\x7d]\x7d]"

def c10elem1 : JVal := JVal.obj [("id", JVal.str "v"), ("title", JVal.str "t"), ("pain", JVal.str "p"), ("target_buyer", JVal.str "b"), ("solution_shape", JVal.str "s"), ("market_type", JVal.str "m"), ("effort_estimate", JVal.str "weekend"), ("monetization", JVal.str "z"), ("moat", JVal.str "w"), ("confidence", JVal.int 75), ("evidence", JVal.arr [JVal.obj [("source", JVal.str "s"), ("item_title", JVal.str "t"), ("url", JVal.str "u"), ("score", JVal.int 65)]])]

def c10elem2 : JVal := JVal.obj [("id", JVal.str "h"), ("title", JVal.str "t"), ("pain", JVal.str "p"), ("target_buyer", JVal.str "b"), ("solution_shape", JVal.str "s"), ("market_type", JVal.str "m"), ("effort_estimate", JVal.str "weekend"), ("monetization", JVal.str "z"), ("moat", JVal.str "w"), ("confidence", JVal.int 75), ("evidence", JVal.arr [JVal.obj [("source", JVal.str "s"), ("item_title", JVal.str "t"), ("url", JVal.str "u"), ("score", JVal.str "high")]])]

/-- A valid single-element response (used by oracles in witnesses). -/
def c1validRaw : String := "[\x7b\"id\":\"o\",\"title\":\"t\",\"pain\":\"p\",\"target_buyer\":\"b\",\"solution_shape\":\"s\",\"market_type\":\"m\",\"effort_estimate\":\"weekend\",\"monetization\":\"z\",\"moat\":\"w\",\"confidence\":75,\"evidence\":[\x7b\"source\":\"s\",\"item_title\":\"t\",\"url\":\"u\",\"score\":65\x7d]\x7d]"

/-- C3 witness input: one valid element and one element missing its
required fields (the repo's own partial-acceptance fixture shape). -/
def cPartialRaw : String := "[\x7b\"id\":\"g\",\"title\":\"t\",\"pain\":\"p\",\"target_buyer\":\"b\",\"solution_shape\":\"s\",\"market_type\":\"m\",\"effort_estimate\":\"weekend\",\"monetization\":\"z\",\"moat\":\"w\",\"confidence\":75,\"evidence\":[\x7b\"source\":\"s\",\"item_title\":\"t\",\"url\":\"u\",\"score\":65\x7d]\x7d,\x7b\"id\":\"x\"\x7d]"

def cPartialElem1 : JVal := JVal.obj [("id", JVal.str "g"), ("title", JVal.str "t"), ("pain", JVal.str "p"), ("target_buyer", JVal.str "b"), ("solution_shape", JVal.str "s"), ("market_type", JVal.str "m"), ("effort_estimate", JVal.str "weekend"), ("monetization", JVal.str "z"), ("moat", JVal.str "w"), ("confidence", JVal.int 75), ("evidence", JVal.arr [JVal.obj [("source", JVal.str "s"), ("item_title", JVal.str "t"), ("url", JVal.str "u"), ("score", JVal.int 65)]])]

def cPartialElem2 : JVal := JVal.obj [("id", JVal.str "x")]

/-- A minimal item whose scoring touches no engagement metadata (the `rss`
branch contributes zero). -/
def plainItem (sid title body : String) : Item :=
  { source := .rss, source_id := sid, url := "https://example.com/" ++ sid
    title := title, body := body, metadata := [], collected_at := "2025-01-01"
    score := 0 }

/-- C4 counterexample input: a GitHub issue whose `reactions` metadata is
the string `"80"`. -/
def c4badItem : Item :=
  { source := .github_issue, source_id := "i1", url := "https://example.com/i1"
    title := "t", body := "", metadata := [("reactions", .str "80")]
    collected_at := "2025-01-01", score := 0 }

/-- C4 second counterexample input: a discussion whose `category` is JSON
`null`. -/
def c4nullCatItem : Item :=
  { source := .github_discussion, source_id := "d1", url := "https://example.com/d1"
    title := "t", body := "", metadata := [("category", .null)]
    collected_at := "2025-01-01", score := 0 }

/-- C4 witness input: a discussion with fully well-typed metadata. -/
def c4okItem : Item :=
  { source := .github_discussion, source_id := "d2", url := "https://example.com/d2"
    title := "t", body := "", metadata :=
      [("upvotes", .int 12), ("comments", .int 7), ("has_answer", .bool false),
       ("category", .str "Ideas"), ("labels", .arr [.str "enhancement"])]
    collected_at := "2025-01-01", score := 0 }

/-- C5 witness input. -/
def c5item : Item := plainItem "c5" "x" ""

/-- C6 witness inputs: one low-scoring and one higher-scoring item. -/
def c6itemA : Item := plainItem "a" "x" ""

def c6itemB : Item :=
  { source := .github_issue, source_id := "b", url := "https://example.com/b"
    title := "y", body := "", metadata := [("reactions", .int 100)]
    collected_at := "2025-01-01", score := 0 }

def c6items : List Item := [c6itemA, c6itemB]

/-- C7 inputs: two opportunities sharing the id `dup-opp` in one run, each
with one evidence entry. -/
def c7evidence1 : EvidenceRef :=
  ⟨"github_issue", "first evidence", "https://example.com/e1", 50⟩

def c7evidence2 : EvidenceRef :=
  ⟨"hacker_news", "second evidence", "https://example.com/e2", 60⟩

def c7opp1 : Opportunity :=
  { id := "dup-opp", title := "First version", pain := "p", target_buyer := "b"
    solution_shape := "s", market_type := "m", effort_estimate := "weekend"
    monetization := "$", moat := "m", confidence := 70
    evidence := [c7evidence1], competition_notes := .str "", run_id := none }

def c7opp2 : Opportunity :=
  { c7opp1 with title := "Second version", confidence := 80, evidence := [c7evidence2] }

/-- C8 witness inputs: the same id persisted in two runs with confidences
82 then 90. -/
def c8opp82 : Opportunity :=
  { id := "terraform-drift-detector", title := "Terraform Drift Detector"
    pain := "p", target_buyer := "b", solution_shape := "s"
    market_type := "boring/growing", effort_estimate := "1-2 weeks"
    monetization := "$", moat := "m", confidence := 82
    evidence := [c7evidence1], competition_notes := .str "", run_id := none }

def c8opp90 : Opportunity :=
  { c8opp82 with title := "Terraform Drift Detector v2", confidence := 90, evidence := [c7evidence2] }

def c8db : DB :=
  let r1 := saveOpportunityRun DB.empty [c8opp82] 5 none "2025-01-01T00:00:00+00:00"
  (saveOpportunityRun r1.1 [c8opp90] 3 none "2025-01-08T00:00:00+00:00").1

/-- C9 scenario inputs: a batch of five items, one of which is the
discussion item carrying the target phrase, 80 upvotes and no accepted
answer. -/
def c9soc : Item :=
  { source := .github_discussion, source_id := "soc", url := "https://example.com/soc"
    title := "SOC 2 compliance audit automation", body := ""
    metadata := [("upvotes", .int 80), ("has_answer", .bool false)]
    collected_at := "2025-01-01", score := 0 }

def c9filler : Item :=
  { source := .hacker_news, source_id := "f", url := "https://example.com/f"
    title := "x", body := "", metadata := [("score", .int 10)]
    collected_at := "2025-01-01", score := 0 }

def c9batch : List Item :=
  [c9filler, c9soc]

/-- C1 inputs: a one-item batch, an oracle whose first call fails with a
provider error, and an oracle whose first response is unparsable and whose
repair call fails. -/
def c1item : Item := plainItem "c1" "x" ""

def c1oracleDown : Nat → Except String LLMResponse :=
  fun _ => .error "connection refused"

def c1oracleGarbage : Nat → Except String LLMResponse :=
  fun n => if n == 0 then .ok ⟨"no json here", 3, 5, "m"⟩ else .error "rate limited"

/-! ### General lemmas -/

set_option maxRecDepth 4000000

set_option maxHeartbeats 4000000

theorem pyMax_zero_nonneg (x : Rat) : 0 ≤ pyMax 0 x := by
  unfold pyMax
  split
  · exact le_of_lt (by assumption)
  · exact le_refl 0

theorem pyMax_zero_pyMin_le (c x : Rat) (hc : 0 ≤ c) : pyMax 0 (pyMin c x) ≤ c := by
  unfold pyMin pyMax
  split_ifs with h1 h2 h3 <;> first | exact le_of_lt (by assumption) | linarith

theorem mem_insertByScore {a x : Item} {l : List Item} :
    a ∈ insertByScore x l ↔ a = x ∨ a ∈ l := by
  induction l with
  | nil => simp [insertByScore]
  | cons y ys ih =>
      simp only [insertByScore]
      split
      · simp
      · simp only [List.mem_cons, ih]
        tauto

theorem mem_sortFold {a : Item} :
    ∀ (l acc : List Item), a ∈ l.foldl (fun acc x => insertByScore x acc) acc ↔
      a ∈ acc ∨ a ∈ l := by
  intro l
  induction l with
  | nil => simp
  | cons x xs ih =>
      intro acc
      simp only [List.foldl_cons, ih, mem_insertByScore, List.mem_cons]
      tauto

theorem mem_sortByScoreDesc {a : Item} {l : List Item} :
    a ∈ sortByScoreDesc l ↔ a ∈ l := by
  unfold sortByScoreDesc
  rw [mem_sortFold]
  simp


theorem strLtB_irrefl : ∀ (l : List Char), strLtB l l = false := by
  intro l
  induction l with
  | nil => rfl
  | cons x xs ih =>
      simp only [strLtB, if_neg (lt_irrefl x)]
      exact ih

theorem strLtB_asymm : ∀ (a b : List Char), strLtB a b = true → strLtB b a = false := by
  intro a
  induction a with
  | nil =>
      intro b h
      cases b with
      | nil => simp [strLtB] at h
      | cons y ys => rfl
  | cons x xs ih =>
      intro b h
      cases b with
      | nil => simp [strLtB] at h
      | cons y ys =>
          simp only [strLtB] at h ⊢
          by_cases hxy : x < y
          · rw [if_neg (lt_asymm hxy), if_pos hxy]
          · rw [if_neg hxy] at h
            by_cases hyx : y < x
            · rw [if_pos hyx] at h; cases h
            · rw [if_neg hyx] at h
              rw [if_neg hyx, if_neg hxy]
              exact ih ys h

theorem strLtB_trans :
    ∀ (a b c : List Char), strLtB a b = true → strLtB b c = true →
      strLtB a c = true := by
  intro a
  induction a with
  | nil =>
      intro b c hab hbc
      cases b with
      | nil => simp [strLtB] at hab
      | cons y ys =>
          cases c with
          | nil => simp [strLtB] at hbc
          | cons z zs => rfl
  | cons x xs ih =>
      intro b c hab hbc
      cases b with
      | nil => simp [strLtB] at hab
      | cons y ys =>
          cases c with
          | nil => simp [strLtB] at hbc
          | cons z zs =>
              simp only [strLtB] at hab hbc ⊢
              by_cases hxy : x < y
              · by_cases hyz : y < z
                · rw [if_pos (lt_trans hxy hyz)]
                · rw [if_neg hyz] at hbc
                  by_cases hzy : z < y
                  · rw [if_pos hzy] at hbc; cases hbc
                  · have hyzeq : y = z := le_antisymm (le_of_not_lt hzy) (le_of_not_lt hyz)
                    rw [if_pos (hyzeq ▸ hxy)]
              · rw [if_neg hxy] at hab
                by_cases hyx : y < x
                · rw [if_pos hyx] at hab; cases hab
                · rw [if_neg hyx] at hab
                  have hxyeq : x = y := le_antisymm (le_of_not_lt hyx) (le_of_not_lt hxy)
                  subst hxyeq
                  by_cases hxz : x < z
                  · rw [if_pos hxz]
                  · rw [if_neg hxz] at hbc ⊢
                    by_cases hzx : z < x
                    · rw [if_pos hzx] at hbc; cases hbc
                    · rw [if_neg hzx] at hbc ⊢
                      exact ih ys zs hab hbc

theorem strLtB_eq_of_nlt :
    ∀ (a b : List Char), strLtB a b = false → strLtB b a = false → a = b := by
  intro a
  induction a with
  | nil =>
      intro b hab _
      cases b with
      | nil => rfl
      | cons y ys => simp [strLtB] at hab
  | cons x xs ih =>
      intro b hab hba
      cases b with
      | nil => simp [strLtB] at hba
      | cons y ys =>
          simp only [strLtB] at hab hba
          by_cases hxy : x < y
          · rw [if_pos hxy] at hab; cases hab
          · rw [if_neg hxy] at hab
            by_cases hyx : y < x
            · rw [if_pos hyx] at hba; cases hba
            · rw [if_neg hyx, if_neg hxy] at hba
              rw [if_neg hyx] at hab
              have hxyeq : x = y := le_antisymm (le_of_not_lt hyx) (le_of_not_lt hxy)
              rw [hxyeq, ih ys hab hba]

theorem strLt_irrefl (a : String) : strLt a a = false := strLtB_irrefl a.data

theorem strLt_asymm {a b : String} (h : strLt a b = true) : strLt b a = false :=
  strLtB_asymm a.data b.data h

theorem strLt_trans {a b c : String} (h1 : strLt a b = true)
    (h2 : strLt b c = true) : strLt a c = true :=
  strLtB_trans a.data b.data c.data h1 h2

theorem strLt_eq_of_nlt {a b : String} (h1 : strLt a b = false)
    (h2 : strLt b a = false) : a = b := by
  cases a with
  | mk da =>
      cases b with
      | mk db => exact congrArg String.mk (strLtB_eq_of_nlt da db h1 h2)

theorem strLt_ne {a b : String} (h : strLt a b = true) : a ≠ b := by
  intro he
  rw [he, strLt_irrefl] at h
  cases h

theorem rowKeyLt_iff (a b : OppRow) :
    rowKeyLt a b = true ↔
      (strLt a.id b.id = true ∨
        (a.id = b.id ∧ strLt a.generated_at b.generated_at = true)) := by
  simp [rowKeyLt]

theorem rowKeyLt_asymm {a b : OppRow} (h : rowKeyLt a b = true) :
    rowKeyLt b a = false := by
  rw [rowKeyLt_iff] at h
  cases hba : rowKeyLt b a
  · rfl
  · rw [rowKeyLt_iff] at hba
    rcases h with h | ⟨he, hg⟩ <;> rcases hba with h' | ⟨he', hg'⟩
    · rw [strLt_asymm h'] at h; cases h
    · exact absurd he'.symm (strLt_ne h)
    · exact absurd he.symm (strLt_ne h')
    · rw [strLt_asymm hg'] at hg; cases hg

theorem rowKeyLt_trans {a b c : OppRow} (h1 : rowKeyLt a b = true)
    (h2 : rowKeyLt b c = true) : rowKeyLt a c = true := by
  rw [rowKeyLt_iff] at h1 h2 ⊢
  rcases h1 with h1 | ⟨e1, g1⟩ <;> rcases h2 with h2 | ⟨e2, g2⟩
  · exact Or.inl (strLt_trans h1 h2)
  · exact Or.inl (e2 ▸ h1)
  · exact Or.inl (e1 ▸ h2)
  · exact Or.inr ⟨e1.trans e2, strLt_trans g1 g2⟩

theorem perm_insertRowAsc (x : OppRow) (l : List OppRow) :
    List.Perm (insertRowAsc x l) (x :: l) := by
  induction l with
  | nil => rfl
  | cons y ys ih =>
      unfold insertRowAsc
      split
      · rfl
      · exact ((ih.cons y).trans (List.Perm.swap x y ys))

theorem mem_insertRowAsc {b x : OppRow} {l : List OppRow} :
    b ∈ insertRowAsc x l ↔ b = x ∨ b ∈ l := by
  rw [(perm_insertRowAsc x l).mem_iff, List.mem_cons]

theorem perm_sortFoldRows :
    ∀ (l acc : List OppRow),
      List.Perm (l.foldl (fun acc x => insertRowAsc x acc) acc) (acc ++ l) := by
  intro l
  induction l with
  | nil => intro acc; simp
  | cons x xs ih =>
      intro acc
      rw [List.foldl_cons]
      refine (ih (insertRowAsc x acc)).trans ?_
      refine (List.Perm.append_right xs (perm_insertRowAsc x acc)).trans ?_
      simpa using (@List.perm_middle _ x acc xs).symm

theorem perm_sortRowsAsc (l : List OppRow) : List.Perm (sortRowsAsc l) l := by
  unfold sortRowsAsc
  simpa using perm_sortFoldRows l []

theorem pairwise_insertRowAsc {x : OppRow} {l : List OppRow}
    (h : l.Pairwise (fun a b => rowKeyLt b a = false)) :
    (insertRowAsc x l).Pairwise (fun a b => rowKeyLt b a = false) := by
  induction l with
  | nil => simp [insertRowAsc]
  | cons y ys ih =>
      rw [List.pairwise_cons] at h
      unfold insertRowAsc
      split
      · next hlt =>
          rw [List.pairwise_cons]
          refine ⟨?_, List.pairwise_cons.mpr h⟩
          intro b hb
          rcases List.mem_cons.mp hb with rfl | hb'
          · exact rowKeyLt_asymm hlt
          · cases hxb : rowKeyLt b x
            · rfl
            · have hby := rowKeyLt_trans hxb hlt
              have := h.1 b hb'
              rw [hby] at this
              cases this
      · next hnlt =>
          rw [List.pairwise_cons]
          constructor
          · intro b hb
            rcases mem_insertRowAsc.mp hb with rfl | hb'
            · rw [Bool.not_eq_true] at hnlt
              exact hnlt
            · exact h.1 b hb'
          · exact ih h.2

theorem pairwise_sortFoldRows :
    ∀ (l acc : List OppRow),
      acc.Pairwise (fun a b => rowKeyLt b a = false) →
      (l.foldl (fun acc x => insertRowAsc x acc) acc).Pairwise
        (fun a b => rowKeyLt b a = false) := by
  intro l
  induction l with
  | nil => intro acc h; exact h
  | cons x xs ih =>
      intro acc h
      rw [List.foldl_cons]
      exact ih _ (pairwise_insertRowAsc h)

theorem pairwise_sortRowsAsc (l : List OppRow) :
    (sortRowsAsc l).Pairwise (fun a b => rowKeyLt b a = false) :=
  pairwise_sortFoldRows l [] List.Pairwise.nil

theorem perm_insertByGat (x : OppRow) (l : List OppRow) :
    List.Perm (insertByGat x l) (x :: l) := by
  induction l with
  | nil => rfl
  | cons y ys ih =>
      unfold insertByGat
      split
      · rfl
      · exact ((ih.cons y).trans (List.Perm.swap x y ys))

theorem mem_insertByGat {b x : OppRow} {l : List OppRow} :
    b ∈ insertByGat x l ↔ b = x ∨ b ∈ l := by
  rw [(perm_insertByGat x l).mem_iff, List.mem_cons]

theorem perm_sortFoldGat :
    ∀ (l acc : List OppRow),
      List.Perm (l.foldl (fun acc x => insertByGat x acc) acc) (acc ++ l) := by
  intro l
  induction l with
  | nil => intro acc; simp
  | cons x xs ih =>
      intro acc
      rw [List.foldl_cons]
      refine (ih (insertByGat x acc)).trans ?_
      refine (List.Perm.append_right xs (perm_insertByGat x acc)).trans ?_
      simpa using (@List.perm_middle _ x acc xs).symm

theorem perm_sortByGatAsc (l : List OppRow) : List.Perm (sortByGatAsc l) l := by
  unfold sortByGatAsc
  simpa using perm_sortFoldGat l []

theorem pairwise_insertByGat {x : OppRow} {l : List OppRow}
    (h : l.Pairwise (fun a b => strLt b.generated_at a.generated_at = false)) :
    (insertByGat x l).Pairwise
      (fun a b => strLt b.generated_at a.generated_at = false) := by
  induction l with
  | nil => simp [insertByGat]
  | cons y ys ih =>
      rw [List.pairwise_cons] at h
      unfold insertByGat
      split
      · next hlt =>
          rw [List.pairwise_cons]
          refine ⟨?_, List.pairwise_cons.mpr h⟩
          intro b hb
          rcases List.mem_cons.mp hb with rfl | hb'
          · exact strLt_asymm hlt
          · cases hbx : strLt b.generated_at x.generated_at
            · rfl
            · have hby := strLt_trans hbx hlt
              have := h.1 b hb'
              rw [hby] at this
              cases this
      · next hnlt =>
          rw [List.pairwise_cons]
          constructor
          · intro b hb
            rcases mem_insertByGat.mp hb with rfl | hb'
            · rw [Bool.not_eq_true] at hnlt
              exact hnlt
            · exact h.1 b hb'
          · exact ih h.2

theorem pairwise_sortFoldGat :
    ∀ (l acc : List OppRow),
      acc.Pairwise (fun a b => strLt b.generated_at a.generated_at = false) →
      (l.foldl (fun acc x => insertByGat x acc) acc).Pairwise
        (fun a b => strLt b.generated_at a.generated_at = false) := by
  intro l
  induction l with
  | nil => intro acc h; exact h
  | cons x xs ih =>
      intro acc h
      rw [List.foldl_cons]
      exact ih _ (pairwise_insertByGat h)

theorem pairwise_sortByGatAsc (l : List OppRow) :
    (sortByGatAsc l).Pairwise
      (fun a b => strLt b.generated_at a.generated_at = false) :=
  pairwise_sortFoldGat l [] List.Pairwise.nil

theorem pairwise_mem_imp {α : Type} {R S : α → α → Prop} :
    ∀ {l : List α}, l.Pairwise R →
      (∀ a ∈ l, ∀ b ∈ l, R a b → S a b) → l.Pairwise S := by
  intro l
  induction l with
  | nil => intro _ _; exact List.Pairwise.nil
  | cons x xs ih =>
      intro h himp
      rw [List.pairwise_cons] at h ⊢
      constructor
      · intro b hb
        exact himp x (List.mem_cons_self x xs) b (List.mem_cons_of_mem x hb) (h.1 b hb)
      · exact ih h.2 (fun a ha b hb hr =>
          himp a (List.mem_cons_of_mem x ha) b (List.mem_cons_of_mem x hb) hr)

theorem sortRowsAsc_filter_eq (rows : List OppRow) (oid : String)
    (hgd : rows.Pairwise
      (fun a b => a.id = b.id → a.generated_at ≠ b.generated_at)) :
    (sortRowsAsc rows).filter (fun r => r.id == oid) =
      sortByGatAsc (rows.filter (fun r => r.id == oid)) := by
  have hperm1 : List.Perm ((sortRowsAsc rows).filter (fun r => r.id == oid))
      (rows.filter (fun r => r.id == oid)) :=
    (perm_sortRowsAsc rows).filter _
  have hperm2 : List.Perm (sortByGatAsc (rows.filter (fun r => r.id == oid)))
      (rows.filter (fun r => r.id == oid)) :=
    perm_sortByGatAsc _
  have hmemf : ∀ r ∈ rows.filter (fun r => r.id == oid), r.id = oid := by
    intro r hr
    exact beq_iff_eq.mp (List.mem_filter.mp hr).2
  have hgdf : (rows.filter (fun r => r.id == oid)).Pairwise
      (fun a b => a.id = b.id → a.generated_at ≠ b.generated_at) :=
    List.Pairwise.sublist (List.filter_sublist rows) hgd
  have hgdne : (rows.filter (fun r => r.id == oid)).Pairwise
      (fun a b => a.generated_at ≠ b.generated_at) :=
    pairwise_mem_imp hgdf
      (fun a ha b hb h => h ((hmemf a ha).trans (hmemf b hb).symm))
  have h1ne : ((sortRowsAsc rows).filter (fun r => r.id == oid)).Pairwise
      (fun a b => a.generated_at ≠ b.generated_at) :=
    (List.Perm.pairwise_iff (fun hxy => hxy.symm) hperm1).mpr hgdne
  have h2ne : (sortByGatAsc (rows.filter (fun r => r.id == oid))).Pairwise
      (fun a b => a.generated_at ≠ b.generated_at) :=
    (List.Perm.pairwise_iff (fun hxy => hxy.symm) hperm2).mpr hgdne
  have hmem1 : ∀ r ∈ (sortRowsAsc rows).filter (fun r => r.id == oid),
      r.id = oid := by
    intro r hr
    exact beq_iff_eq.mp (List.mem_filter.mp hr).2
  have hs1RL : ((sortRowsAsc rows).filter (fun r => r.id == oid)).Pairwise
      (fun a b => rowKeyLt b a = false) :=
    List.Pairwise.sublist (List.filter_sublist _) (pairwise_sortRowsAsc rows)
  have hstrict1 : ((sortRowsAsc rows).filter (fun r => r.id == oid)).Pairwise
      (fun a b => strLt a.generated_at b.generated_at = true) := by
    refine pairwise_mem_imp (List.Pairwise.and hs1RL h1ne) ?_
    rintro a ha b hb ⟨hRL, hne⟩
    have hids : b.id = a.id := (hmem1 b hb).trans (hmem1 a ha).symm
    have hg2 : strLt b.generated_at a.generated_at = false := by
      cases hg : strLt b.generated_at a.generated_at
      · rfl
      · have := (rowKeyLt_iff b a).mpr (Or.inr ⟨hids, hg⟩)
        rw [this] at hRL
        cases hRL
    cases hg : strLt a.generated_at b.generated_at
    · exact absurd (strLt_eq_of_nlt hg hg2) hne
    · rfl
  have hs2GL : (sortByGatAsc (rows.filter (fun r => r.id == oid))).Pairwise
      (fun a b => strLt b.generated_at a.generated_at = false) :=
    pairwise_sortByGatAsc _
  have hstrict2 : (sortByGatAsc (rows.filter (fun r => r.id == oid))).Pairwise
      (fun a b => strLt a.generated_at b.generated_at = true) := by
    refine pairwise_mem_imp (List.Pairwise.and hs2GL h2ne) ?_
    rintro a _ b _ ⟨hng, hne⟩
    cases hg : strLt a.generated_at b.generated_at
    · exact absurd (strLt_eq_of_nlt hg hng) hne
    · rfl
  haveI : IsAntisymm OppRow
      (fun a b => strLt a.generated_at b.generated_at = true) :=
    ⟨fun a b h1 h2 => absurd h1 (by simp [strLt_asymm h2])⟩
  exact List.eq_of_perm_of_sorted (hperm1.trans hperm2.symm) hstrict1 hstrict2

theorem getLast?_app_one {α : Type} (a : α) (l : List α) :
    (l ++ [a]).getLast? = some a := by
  induction l with
  | nil => rfl
  | cons x xs ih =>
      cases xs with
      | nil => rfl
      | cons y ys =>
          simp only [List.cons_append, List.getLast?_cons_cons]
          simpa using ih

theorem mem_of_getLast?_eq {α : Type} :
    ∀ {l : List α} {a : α}, l.getLast? = some a → a ∈ l := by
  intro l
  induction l with
  | nil => intro a h; cases h
  | cons x xs ih =>
      intro a h
      cases xs with
      | nil =>
          rw [show (x :: ([] : List α)).getLast? = some x from rfl] at h
          rw [Option.some_inj] at h
          rw [h]
          exact List.mem_cons_self a _
      | cons y ys =>
          rw [List.getLast?_cons_cons] at h
          exact List.mem_cons_of_mem x (ih h)

theorem pairwise_getLast_rel {α : Type} {R : α → α → Prop} :
    ∀ {l : List α} {a : α}, l.Pairwise R → l.getLast? = some a →
      ∀ x ∈ l, x = a ∨ R x a := by
  intro l
  induction l with
  | nil => intro a _ h; cases h
  | cons y ys ih =>
      intro a hp hl x hx
      rw [List.pairwise_cons] at hp
      cases ys with
      | nil =>
          rw [show (y :: ([] : List α)).getLast? = some y from rfl,
            Option.some_inj] at hl
          rcases List.mem_cons.mp hx with rfl | hx'
          · exact Or.inl hl
          · cases hx'
      | cons z zs =>
          rw [List.getLast?_cons_cons] at hl
          rcases List.mem_cons.mp hx with rfl | hx'
          · exact Or.inr (hp.1 a (mem_of_getLast?_eq hl))
          · exact ih hp.2 hl x hx'

theorem trends_foldl_spec (rs : List OppRow) :
    ((rs.foldl addTrendRow []).map (fun t => t.id)).Nodup
    ∧ (∀ r ∈ rs, r.id ∈ (rs.foldl addTrendRow []).map (fun t => t.id))
    ∧ (∀ t ∈ rs.foldl addTrendRow [], ∃ r ∈ rs, r.id = t.id)
    ∧ (∀ t ∈ rs.foldl addTrendRow [], t.data_points =
        (rs.filter (fun r => r.id == t.id)).map pointOf)
    ∧ (∀ t ∈ rs.foldl addTrendRow [], ∃ rl,
        (rs.filter (fun r => r.id == t.id)).getLast? = some rl ∧ t.title = rl.title) := by
  induction rs using List.reverseRecOn with
  | nil => exact ⟨List.nodup_nil, by simp, by simp, by simp, by simp⟩
  | append_singleton l r ih =>
      obtain ⟨ihN, ihC, ihO, ihP, ihT⟩ := ih
      simp only [List.foldl_append, List.foldl_cons, List.foldl_nil]
      set T := l.foldl addTrendRow [] with hTdef
      by_cases hany : T.any (fun t => t.id == r.id) = true
      · -- an entry for r.id already exists: it is updated in place
        simp only [addTrendRow, if_pos hany]
        have hid_pres : ∀ t : Trend,
            ((if t.id == r.id then { t with title := r.title, data_points := t.data_points ++ [⟨r.run_id, r.confidence, r.generated_at⟩] } else t) : Trend).id = t.id := by
          intro t; split <;> rfl
        have hids_eq :
            (T.map (fun t => if t.id == r.id then { t with title := r.title, data_points := t.data_points ++ [⟨r.run_id, r.confidence, r.generated_at⟩] } else t)).map (fun t => t.id)
              = T.map (fun t => t.id) := by
          rw [List.map_map]
          exact List.map_congr_left (fun t _ => hid_pres t)
        obtain ⟨t0, ht0, ht0id⟩ : ∃ t0 ∈ T, (t0.id == r.id) = true := by
          simpa using hany
        have ht0id' : t0.id = r.id := beq_iff_eq.mp ht0id
        refine ⟨?_, ?_, ?_, ?_, ?_⟩
        · rw [hids_eq]; exact ihN
        · intro r' hr'
          rw [hids_eq]
          rcases List.mem_append.mp hr' with h' | h'
          · exact ihC r' h'
          · rw [List.mem_singleton.mp h']
            exact List.mem_map.mpr ⟨t0, ht0, ht0id'⟩
        · intro t' ht'
          obtain ⟨t, htT, hteq⟩ := List.mem_map.mp ht'
          obtain ⟨r0, hr0, hr0id⟩ := ihO t htT
          exact ⟨r0, List.mem_append_left _ hr0, by rw [← hteq, hid_pres t, hr0id]⟩
        · intro t' ht'
          obtain ⟨t, htT, hteq⟩ := List.mem_map.mp ht'
          rw [← hteq]
          by_cases hid : (t.id == r.id) = true
          · rw [if_pos hid]
            have hpred : (r.id == t.id) = true := by
              rw [beq_iff_eq] at hid ⊢; exact hid.symm
            rw [List.filter_append]
            simp only [List.filter_cons, List.filter_nil, hpred, if_pos]
            rw [List.map_append]
            rw [ihP t htT]
            rfl
          · rw [if_neg hid]
            have hpred : (r.id == t.id) = false := by
              rw [Bool.not_eq_true, beq_eq_false_iff_ne] at hid
              rw [beq_eq_false_iff_ne]
              exact fun he => hid he.symm
            rw [List.filter_append]
            simp only [List.filter_cons, List.filter_nil, hpred]
            simp only [Bool.false_eq_true, if_false, List.append_nil]
            exact ihP t htT
        · intro t' ht'
          obtain ⟨t, htT, hteq⟩ := List.mem_map.mp ht'
          rw [← hteq]
          by_cases hid : (t.id == r.id) = true
          · rw [if_pos hid]
            have hpred : (r.id == t.id) = true := by
              rw [beq_iff_eq] at hid ⊢; exact hid.symm
            refine ⟨r, ?_, rfl⟩
            rw [List.filter_append]
            simp only [List.filter_cons, List.filter_nil, hpred, if_pos]
            exact getLast?_app_one r _
          · rw [if_neg hid]
            have hpred : (r.id == t.id) = false := by
              rw [Bool.not_eq_true, beq_eq_false_iff_ne] at hid
              rw [beq_eq_false_iff_ne]
              exact fun he => hid he.symm
            rw [List.filter_append]
            simp only [List.filter_cons, List.filter_nil, hpred]
            simp only [Bool.false_eq_true, if_false, List.append_nil]
            exact ihT t htT
      · -- no entry for r.id yet: a fresh entry is appended
        simp only [addTrendRow, if_neg hany]
        have hnotin : ∀ t ∈ T, (t.id == r.id) = false := by
          intro t ht
          cases h : (t.id == r.id)
          · rfl
          · exact absurd (List.any_eq_true.mpr ⟨t, ht, h⟩) hany
        have hnotid : r.id ∉ T.map (fun t => t.id) := by
          intro hmem
          obtain ⟨t, htT, htid⟩ := List.mem_map.mp hmem
          have := hnotin t htT
          rw [beq_eq_false_iff_ne] at this
          exact this htid
        have hfilterl : l.filter (fun row => row.id == r.id) = [] := by
          rw [List.filter_eq_nil_iff]
          intro a ha hae
          apply hnotid
          have hae' : a.id = r.id := beq_iff_eq.mp hae
          exact hae' ▸ ihC a ha
        refine ⟨?_, ?_, ?_, ?_, ?_⟩
        · rw [List.map_append]
          refine List.Nodup.append ihN (List.nodup_singleton _) ?_
          intro x hx1 hx2
          rw [List.map_singleton, List.mem_singleton] at hx2
          rw [hx2] at hx1
          exact hnotid hx1
        · intro r' hr'
          rw [List.map_append]
          rcases List.mem_append.mp hr' with h' | h'
          · exact List.mem_append_left _ (ihC r' h')
          · rw [List.mem_singleton.mp h']
            exact List.mem_append_right _ (by simp)
        · intro t' ht'
          rcases List.mem_append.mp ht' with h' | h'
          · obtain ⟨r0, hr0, hr0id⟩ := ihO t' h'
            exact ⟨r0, List.mem_append_left _ hr0, hr0id⟩
          · rw [List.mem_singleton.mp h']
            exact ⟨r, List.mem_append_right _ (by simp), rfl⟩
        · intro t' ht'
          rcases List.mem_append.mp ht' with h' | h'
          · have hpred : (r.id == t'.id) = false := by
              rw [beq_eq_false_iff_ne]
              intro he
              obtain ⟨r0, hr0, hr0id⟩ := ihO t' h'
              apply hnotid
              rw [he]
              exact hr0id ▸ ihC r0 hr0
            rw [List.filter_append]
            simp only [List.filter_cons, List.filter_nil, hpred]
            simp only [Bool.false_eq_true, if_false, List.append_nil]
            exact ihP t' h'
          · rw [List.mem_singleton.mp h']
            rw [List.filter_append]
            simp only [List.filter_cons, List.filter_nil, beq_self_eq_true, if_pos]
            rw [hfilterl]
            rfl
        · intro t' ht'
          rcases List.mem_append.mp ht' with h' | h'
          · have hpred : (r.id == t'.id) = false := by
              rw [beq_eq_false_iff_ne]
              intro he
              obtain ⟨r0, hr0, hr0id⟩ := ihO t' h'
              apply hnotid
              rw [he]
              exact hr0id ▸ ihC r0 hr0
            rw [List.filter_append]
            simp only [List.filter_cons, List.filter_nil, hpred]
            simp only [Bool.false_eq_true, if_false, List.append_nil]
            exact ihT t' h'
          · rw [List.mem_singleton.mp h']
            refine ⟨r, ?_, rfl⟩
            rw [List.filter_append]
            simp only [List.filter_cons, List.filter_nil, beq_self_eq_true, if_pos]
            rw [hfilterl]
            rfl

theorem finishReport_calls (db : DB) (items : List Item) (opps : List Opportunity)
    (now : String) (calls : List LLMCall) :
    (finishReport db items opps now calls).calls = calls := by
  unfold finishReport
  split
  · rfl
  · rfl


theorem fenceRE_eq : fenceRE = fenceAst := by decide

theorem reMatch_chr_nil (fuel : Nat) (c : Char) (prev : Option Char) :
    reMatch fuel (.chr c) prev [] = [] := by
  cases fuel with
  | zero => rfl
  | succ m => rfl

theorem reMatch_chr_cons_ne {x c : Char} (h : x ≠ c) (fuel : Nat)
    (prev : Option Char) (rest : List Char) :
    reMatch fuel (.chr c) prev (x :: rest) = [] := by
  cases fuel with
  | zero => rfl
  | succ m =>
      simp only [reMatch]
      rw [if_neg (by simpa using h)]

theorem reMatch_fenceAst_nil (fuel : Nat) (prev : Option Char) :
    reMatch fuel fenceAst prev [] = [] := by
  cases fuel with
  | zero => rfl
  | succ m =>
      simp only [fenceAst, reMatch]
      rw [reMatch_chr_nil]
      rfl

theorem reMatch_fenceAst_cons {c : Char} (hc : c ≠ '`') (fuel : Nat)
    (prev : Option Char) (rest : List Char) :
    reMatch fuel fenceAst prev (c :: rest) = [] := by
  cases fuel with
  | zero => rfl
  | succ m =>
      simp only [fenceAst, reMatch]
      rw [reMatch_chr_cons_ne hc]
      rfl

theorem subFenceGo_id :
    ∀ (s : List Char) (fuel : Nat) (prev : Option Char),
      (∀ c ∈ s, c ≠ '`') → subFenceGo fuel prev s = s := by
  intro s
  induction s with
  | nil =>
      intro fuel prev _
      cases fuel with
      | zero => rfl
      | succ m => rfl
  | cons c rest ih =>
      intro fuel prev hbt
      cases fuel with
      | zero => rfl
      | succ m =>
          simp only [subFenceGo, fenceRE_eq]
          rw [reMatch_fenceAst_cons (hbt c (List.mem_cons_self c rest))]
          rw [ih m (some c) (fun x hx => hbt x (List.mem_cons_of_mem c hx))]

theorem reMatch_fenceAst_open (m : Nat) (prev : Option Char) (xs : List Char) :
    ∃ tl, reMatch (m + 32) fenceAst prev
        ('`' :: '`' :: '`' :: 'j' :: 's' :: 'o' :: 'n' :: '\n' :: '[' :: xs)
      = (some '\n', '[' :: xs) :: tl := by
  exact ⟨_, rfl⟩

theorem reMatch_fenceAst_close3 (prev : Option Char) :
    reMatch (reFuel fenceAst ['`', '`', '`']) fenceAst prev ['`', '`', '`']
      = [(some '`', [])] := by rfl

theorem subFenceGo_nil (fuel : Nat) (prev : Option Char) :
    subFenceGo fuel prev [] = [] := by
  cases fuel with
  | zero => rfl
  | succ m => rfl

theorem subFenceGo_tail :
    ∀ (as : List Char) (fuel : Nat) (prev : Option Char),
      (∀ c ∈ as, c ≠ '`') → as.length + 5 ≤ fuel →
      subFenceGo fuel prev (as ++ '\n' :: '`' :: '`' :: '`' :: []) = as ++ ['\n'] := by
  intro as
  induction as with
  | nil =>
      intro fuel prev _ hf
      obtain ⟨f1, rfl⟩ : ∃ f1, fuel = f1 + 1 := ⟨fuel - 1, by omega⟩
      simp only [List.nil_append]
      simp only [subFenceGo, fenceRE_eq]
      rw [reMatch_fenceAst_cons (by decide)]
      obtain ⟨f2, rfl⟩ : ∃ f2, f1 = f2 + 1 := ⟨f1 - 1, by omega⟩
      simp only [subFenceGo, fenceRE_eq]
      rw [reMatch_fenceAst_close3]
      simp only [List.length_nil, List.length_cons, Nat.zero_lt_succ, if_pos]
      rw [subFenceGo_nil]
  | cons c cs ih =>
      intro fuel prev hbt hf
      obtain ⟨f, rfl⟩ : ∃ f, fuel = f + 1 := ⟨fuel - 1, by omega⟩
      simp only [List.cons_append]
      simp only [subFenceGo, fenceRE_eq]
      rw [reMatch_fenceAst_cons (hbt c (List.mem_cons_self c cs))]
      rw [ih f (some c) (fun x hx => hbt x (List.mem_cons_of_mem c hx))
        (by simp at hf; omega)]


theorem fenceAst_size : RE.size fenceAst = 26 := by decide

theorem subFence_fencewrap (A : String) (tl : List Char)
    (htl : A.data = '[' :: tl) (hbt : ∀ c ∈ A.data, c ≠ '`') :
    subFence ("```json\n" ++ A ++ "\n```") = ⟨A.data ++ ['\n']⟩ := by
  have hdata : ("```json\n" ++ A ++ "\n```").data
      = '`' :: '`' :: '`' :: 'j' :: 's' :: 'o' :: 'n' :: '\n' ::
          (A.data ++ '\n' :: '`' :: '`' :: '`' ::[]) := by
    rw [String.data_append, String.data_append]
    rfl
  unfold subFence
  rw [hdata]
  have hlen : ('`' :: '`' :: '`' :: 'j' :: 's' :: 'o' :: 'n' :: '\n' ::
      (A.data ++ '\n' :: '`' :: '`' :: '`' ::[])).length + 1
      = (A.data.length + 12) + 1 := by
    simp
  rw [hlen]
  simp only [subFenceGo, fenceRE_eq]
  have hge : 32 ≤ reFuel fenceAst ('`' :: '`' :: '`' :: 'j' :: 's' :: 'o' :: 'n' :: '\n' ::
      (A.data ++ '\n' :: '`' :: '`' :: '`' ::[])) := by
    simp only [reFuel, fenceAst_size, List.length_cons, List.length_append]
    omega
  obtain ⟨m, hm⟩ : ∃ m, reFuel fenceAst ('`' :: '`' :: '`' :: 'j' :: 's' :: 'o' :: 'n' :: '\n' ::
      (A.data ++ '\n' :: '`' :: '`' :: '`' ::[])) = m + 32 :=
    ⟨reFuel fenceAst ('`' :: '`' :: '`' :: 'j' :: 's' :: 'o' :: 'n' :: '\n' ::
      (A.data ++ '\n' :: '`' :: '`' :: '`' ::[])) - 32, by omega⟩
  rw [hm]
  have hsplit : A.data ++ '\n' :: '`' :: '`' :: '`' ::[]
      = '[' :: (tl ++ '\n' :: '`' :: '`' :: '`' ::[]) := by
    rw [htl]
    rfl
  rw [hsplit]
  obtain ⟨tl2, hm2⟩ := reMatch_fenceAst_open m none (tl ++ '\n' :: '`' :: '`' :: '`' ::[])
  simp only [hm2]
  rw [if_pos (by simp only [List.length_cons, List.length_append]; omega)]
  rw [← hsplit]
  rw [subFenceGo_tail A.data (A.data.length + 12) (some '\n') hbt (by omega)]

theorem scanBalanced_shape {A : String} (hA : scanBalanced A = true) :
    ∃ tl, A.data = '[' :: tl := by
  unfold scanBalanced at hA
  split at hA
  · next heq => exact ⟨_, heq⟩
  · cases hA

theorem scanBalanced_go {A : String} (hA : scanBalanced A = true) :
    scanBalancedGo A.data 0 = true := by
  unfold scanBalanced at hA
  split at hA
  · next heq => rw [heq] at hA ⊢; exact hA
  · cases hA

theorem scanBalancedGo_last :
    ∀ (cs : List Char) (d : Int), scanBalancedGo cs d = true →
      ∃ pre, cs = pre ++ [']'] := by
  intro cs
  induction cs with
  | nil => intro d h; cases h
  | cons c rest ih =>
      intro d h
      by_cases hc1 : c = '['
      · subst hc1
        have h' : scanBalancedGo rest (d + 1) = true := by
          simpa [scanBalancedGo] using h
        obtain ⟨pre, hpre⟩ := ih _ h'
        exact ⟨'[' :: pre, by rw [hpre]; rfl⟩
      · by_cases hc2 : c = ']'
        · subst hc2
          by_cases hd : (d - 1 : Int) = 0
          · have h' : rest.isEmpty = true := by
              simpa [scanBalancedGo, hd] using h
            have hrest : rest = [] := by
              cases rest with
              | nil => rfl
              | cons a b => simp [List.isEmpty] at h'
            exact ⟨[], by rw [hrest]; rfl⟩
          · have h' : scanBalancedGo rest (d - 1) = true := by
              simpa [scanBalancedGo, hd] using h
            obtain ⟨pre, hpre⟩ := ih _ h'
            exact ⟨']' :: pre, by rw [hpre]; rfl⟩
        · have h' : scanBalancedGo rest d = true := by
            simpa [scanBalancedGo, hc1, hc2] using h
          obtain ⟨pre, hpre⟩ := ih _ h'
          exact ⟨c :: pre, by rw [hpre]; rfl⟩

theorem scanArray_of_balanced :
    ∀ (cs : List Char) (depth : Int) (acc ext : List Char),
      scanBalancedGo cs depth = true →
      scanArray (cs ++ ext) depth acc = some (acc ++ cs) := by
  intro cs
  induction cs with
  | nil => intro depth acc ext h; cases h
  | cons c rest ih =>
      intro depth acc ext h
      rw [List.cons_append]
      by_cases hc1 : c = '['
      · subst hc1
        have h' : scanBalancedGo rest (depth + 1) = true := by
          simpa [scanBalancedGo] using h
        simp only [scanArray, if_pos rfl]
        rw [ih _ _ ext h']
        simp
      · by_cases hc2 : c = ']'
        · subst hc2
          by_cases hd : (depth - 1 : Int) = 0
          · have h' : rest.isEmpty = true := by
              simpa [scanBalancedGo, hd] using h
            have hrest : rest = [] := by
              cases rest with
              | nil => rfl
              | cons a b => simp [List.isEmpty] at h'
            subst hrest
            simp [scanArray, hd]
          · have h' : scanBalancedGo rest (depth - 1) = true := by
              simpa [scanBalancedGo, hd] using h
            simp only [scanArray, if_neg (by decide : ¬ (']' : Char) = '['), if_pos rfl,
              if_neg hd]
            rw [ih _ _ ext h']
            simp
        · have h' : scanBalancedGo rest depth = true := by
            simpa [scanBalancedGo, hc1, hc2] using h
          simp only [scanArray, if_neg hc1, if_neg hc2]
          rw [ih _ _ ext h']
          simp

theorem dropWhile_append_stop {q : Char → Bool} {x : Char} (hq : q x = false) :
    ∀ (l m : List Char),
      List.dropWhile q (l ++ x :: m) = List.dropWhile q l ++ x :: m := by
  intro l m
  induction l with
  | nil => simp [List.dropWhile, hq]
  | cons a l' ih =>
      rw [List.cons_append]
      simp only [List.dropWhile]
      cases ha : q a
      · rfl
      · exact ih

theorem takeWhile_append_stop {q : Char → Bool} {x : Char} (hq : q x = false) :
    ∀ (l m : List Char), (∀ c ∈ l, q c = true) →
      List.takeWhile q (l ++ x :: m) = l := by
  intro l m
  induction l with
  | nil => intro _; simp [List.takeWhile, hq]
  | cons a l' ih =>
      intro hall
      rw [List.cons_append]
      simp only [List.takeWhile]
      rw [hall a (List.mem_cons_self a l')]
      rw [ih (fun c hc => hall c (List.mem_cons_of_mem a hc))]

theorem mem_of_mem_dropWhile {q : Char → Bool} :
    ∀ {l : List Char} {c : Char}, c ∈ List.dropWhile q l → c ∈ l := by
  intro l
  induction l with
  | nil => intro c h; cases h
  | cons a l' ih =>
      intro c h
      simp only [List.dropWhile] at h
      cases ha : q a
      · rw [ha] at h
        exact h
      · rw [ha] at h
        exact List.mem_cons_of_mem a (ih h)

theorem pyStrip_structure (A : String) (tl pre : List Char)
    (hhead : A.data = '[' :: tl) (hlast : A.data = pre ++ [']'])
    (p s : List Char) :
    ∃ p' s', (pyStrip ⟨p ++ A.data ++ s⟩).data = p' ++ A.data ++ s'
      ∧ (∀ c ∈ p', c ∈ p) ∧ (∀ c ∈ s', c ∈ s) := by
  refine ⟨List.dropWhile pyWs p, (List.dropWhile pyWs s.reverse).reverse,
    ?_, fun c hc => mem_of_mem_dropWhile hc,
    fun c hc => List.mem_reverse.mp (mem_of_mem_dropWhile (List.mem_reverse.mp hc))⟩
  show ((((p ++ A.data ++ s).dropWhile pyWs).reverse.dropWhile pyWs)).reverse
      = List.dropWhile pyWs p ++ A.data ++ (List.dropWhile pyWs s.reverse).reverse
  have h1 : (p ++ A.data ++ s).dropWhile pyWs
      = List.dropWhile pyWs p ++ A.data ++ s := by
    rw [List.append_assoc, hhead, List.cons_append]
    rw [dropWhile_append_stop (by decide)]
    rw [← List.cons_append, ← hhead, ← List.append_assoc]
  rw [h1]
  have h2 : (List.dropWhile pyWs p ++ A.data ++ s).reverse
      = s.reverse ++ (']' :: (pre.reverse ++ (List.dropWhile pyWs p).reverse)) := by
    rw [List.append_assoc, List.reverse_append, List.reverse_append, hlast]
    simp
  rw [h2]
  rw [dropWhile_append_stop (by decide)]
  rw [List.reverse_append]
  simp only [List.reverse_cons, List.reverse_append, List.reverse_reverse]
  rw [hlast]
  simp [List.append_assoc]

theorem extract_stripped (A text : String) (p s : List Char)
    (hA : scanBalanced A = true)
    (hp : ∀ c ∈ p, proseSafe c = true)
    (hsub : subFence text = ⟨p ++ A.data ++ s⟩) :
    extractJsonArray text = .ok A := by
  obtain ⟨tl, hhead⟩ := scanBalanced_shape hA
  obtain ⟨pre, hlast⟩ := scanBalancedGo_last A.data 0 (scanBalanced_go hA)
  obtain ⟨p', s', hstr, hp', hs'⟩ := pyStrip_structure A tl pre hhead hlast p s
  have hq : ∀ c ∈ p', (decide (c ≠ '[')) = true := by
    intro c hc
    have := hp c (hp' c hc)
    simp [proseSafe] at this
    simp [this.1]
  have hshape : p' ++ A.data ++ s' = p' ++ '[' :: (tl ++ s') := by
    rw [hhead, List.append_assoc, List.cons_append]
  have htake : (p' ++ A.data ++ s').takeWhile (fun c => decide (c ≠ '[')) = p' := by
    rw [hshape]
    exact takeWhile_append_stop (by decide) p' (tl ++ s') hq
  have hdrop : (p' ++ A.data ++ s').drop p'.length = A.data ++ s' := by
    rw [List.append_assoc]
    exact List.drop_left p' (A.data ++ s')
  simp only [extractJsonArray, hsub, hstr, htake, hdrop]
  rw [if_neg ?hne]
  case hne =>
    rw [hshape]
    simp only [List.length_append, List.length_cons]
    omega
  rw [scanArray_of_balanced A.data 0 [] s' (scanBalanced_go hA)]
  rw [List.nil_append]

/-! ### The claims -/

/-- C5: for every item on which `score_item` completes, the written-back
score satisfies `0 ≤ score ≤ 100`; the clamp `max(0, min(100, total))` is
applied whatever the four components summed to, so no construction of the
pattern, engagement and body-quality components can escape the bounds. -/
theorem C5_score_clamped (item item' : Item) (h : scoreItem item = .ok item') :
    0 ≤ item'.score ∧ item'.score ≤ 100 := by
  unfold scoreItem at h
  cases he : engagementScore item with
  | error e => rw [he] at h; simp [Except.bind] at h
  | ok eng =>
      rw [he] at h
      simp only [Except.bind, Except.pure, pure] at h
      cases h
      exact ⟨pyMax_zero_nonneg _, pyMax_zero_pyMin_le _ _ (by norm_num)⟩

/-- C5 witness: the theorem applied to a concrete item. -/
theorem C5_score_clamped_witness :
    0 ≤ (Item.mk .rss "c5" "https://example.com/c5" "x" "" [] "2025-01-01" 10).score ∧
    (Item.mk .rss "c5" "https://example.com/c5" "x" "" [] "2025-01-01" 10).score ≤ 100 :=
  C5_score_clamped c5item _ (by decide)

/-- C6: raising the threshold only removes items.  For any item list and
thresholds `t1 ≤ t2`, whenever both `filter_items` calls complete, every
item of the `t2` result is in the `t1` result (the same deterministic
scores are computed in both runs, the `t2` filter predicate implies the
`t1` one, and sorting only permutes). -/
theorem C6_filter_monotone (items : List Item) (t1 t2 : Int) (l1 l2 : List Item)
    (hle : t1 ≤ t2) (h1 : filterItems items t1 = .ok l1)
    (h2 : filterItems items t2 = .ok l2) :
    ∀ x ∈ l2, x ∈ l1 := by
  unfold filterItems at h1 h2
  cases hm : items.mapM scoreItem with
  | error e => rw [hm] at h1; simp [Except.bind] at h1
  | ok scored =>
      rw [hm] at h1 h2
      simp only [bind, Except.instMonad, Except.bind, Except.pure, pure,
        Except.ok.injEq] at h1 h2
      subst h1; subst h2
      intro x hx
      rw [mem_sortByScoreDesc] at hx ⊢
      rw [List.mem_filter] at hx ⊢
      refine ⟨hx.1, ?_⟩
      have h2' : ((t2 : Int) : Rat) ≤ x.score := by
        have := hx.2
        simpa using this
      have hcast : ((t1 : Int) : Rat) ≤ ((t2 : Int) : Rat) := by
        exact_mod_cast hle
      simpa using le_trans hcast h2'

/-- C6 witness: the theorem applied to a concrete batch and thresholds 0
and 20; the surviving high-scoring item of the stricter filter is in the
lenient filter's output. -/
theorem C6_filter_monotone_witness :
    ({ c6itemB with score := 25 } : Item) ∈
      [{ c6itemB with score := 25 }, { c6itemA with score := 10 }] := by
  have hA : scoreItem c6itemA = .ok { c6itemA with score := 10 } := by decide
  have hB : scoreItem c6itemB = .ok { c6itemB with score := 25 } := by decide
  have h1 : filterItems c6items 0 =
      .ok [{ c6itemB with score := 25 }, { c6itemA with score := 10 }] := by
    simp only [filterItems, c6items, List.mapM_cons, List.mapM_nil, hA, hB]
    rfl
  have h2 : filterItems c6items 20 = .ok [{ c6itemB with score := 25 }] := by
    simp only [filterItems, c6items, List.mapM_cons, List.mapM_nil, hA, hB]
    rfl
  exact C6_filter_monotone c6items 0 20 _ _ (by decide) h1 h2
    { c6itemB with score := 25 } (by decide)

/-- C9: the end-to-end scenario: in a batch containing it, the discussion
item whose text contains "SOC 2 compliance audit automation", with 80
upvotes and no accepted answer, scores 65 (base 20, pattern +20 from the
`compliance audit` signal, engagement +35, body-quality −10), which
strictly exceeds the default threshold 40, and it is exactly the batch's
`filter_items` survivor at that threshold. -/
theorem C9_soc2_scenario :
    scoreItem c9soc = .ok { c9soc with score := 65 } ∧
    (40 : Rat) < ({ c9soc with score := 65 } : Item).score ∧
    filterItems c9batch 40 = .ok [{ c9soc with score := 65 }] := by
  have hsoc : scoreItem c9soc = .ok { c9soc with score := 65 } := by decide
  have hfil : scoreItem c9filler = .ok { c9filler with score := 10 } := by decide
  refine ⟨hsoc, by decide, ?_⟩
  simp only [filterItems, c9batch, List.mapM_cons, List.mapM_nil, hsoc, hfil]
  rfl

/-- C10: an input array whose second element satisfies every validation
rule but carries the evidence score `"high"`: both elements pass
validation (the evidence `score` type is never checked there), yet the
whole call raises the `int()` conversion `ValueError`, discarding the
fully valid first element instead of applying partial acceptance. -/
theorem C10_evidence_score_crashes_batch :
    extractJsonArray c10raw = .ok c10raw ∧
    jsonLoads c10raw = .ok (.arr [c10elem1, c10elem2]) ∧
    validateOpportunityDict (elemFields c10elem1) = [] ∧
    validateOpportunityDict (elemFields c10elem2) = [] ∧
    parseOpportunitiesJson c10raw =
      .error (.valueError "invalid literal for int() with base 10: 'high'") := by
  refine ⟨by decide, by decide, by decide, by decide, by decide⟩

/-- C4, counterexample: `score_item` is not total on malformed metadata:
a string reaction count makes the issue branch raise `TypeError` on `//`,
and a `null` category makes the discussion branch raise `AttributeError`
on `.lower()`, contradicting "the scoring function never raises". -/
theorem C4_counterexample :
    scoreItem c4badItem =
      .error (.typeError "unsupported operand type(s) for //: 'str' and 'int'") ∧
    scoreItem c4nullCatItem =
      .error (.attributeError "'NoneType' object has no attribute 'lower'") := by
  refine ⟨by decide, by decide⟩

theorem isIntVal_ex {v : JVal} (h : isIntVal v = true) : ∃ n, v = .int n := by
  cases v <;> simp [isIntVal] at h ⊢

theorem isStrVal_ex {v : JVal} (h : isStrVal v = true) : ∃ s, v = .str s := by
  cases v <;> simp [isStrVal] at h ⊢

theorem isStrList_ex {v : JVal} (h : isStrList v = true) :
    ∃ xs, v = .arr xs ∧ ∀ u ∈ xs, isStrVal u = true := by
  cases v <;> simp [isStrList, List.all_eq_true] at h ⊢
  exact h

theorem anyLowerIn_ok {xs : List JVal} (h : ∀ u ∈ xs, isStrVal u = true)
    (labelSet : List String) : ∃ b, anyLowerIn xs labelSet = .ok b := by
  induction xs with
  | nil => exact ⟨false, rfl⟩
  | cons v rest ih =>
      obtain ⟨s, rfl⟩ := isStrVal_ex (h v (by simp))
      simp only [anyLowerIn, pyLowerVal, Except.bind, bind, Except.instMonad]
      split
      · exact ⟨true, rfl⟩
      · exact ih (fun u hu => h u (by simp [hu]))

theorem engagementScore_ok (item : Item) (h : metaWellTyped item = true) :
    ∃ e, engagementScore item = .ok e := by
  unfold metaWellTyped at h
  simp only [engagementScore]
  cases hs : item.source <;> rw [hs] at h <;> simp only []
  case github_release => exact ⟨_, rfl⟩
  case rss => exact ⟨_, rfl⟩
  case github_issue =>
      simp only [Bool.and_eq_true] at h
      obtain ⟨⟨hr, hc⟩, hl⟩ := h
      obtain ⟨r, hr'⟩ := isIntVal_ex hr
      obtain ⟨c, hc'⟩ := isIntVal_ex hc
      obtain ⟨xs, hxs, hall⟩ := isStrList_ex hl
      rw [hr', hc', hxs]
      obtain ⟨b1, hb1⟩ := anyLowerIn_ok hall high_signal_labels
      obtain ⟨b2, hb2⟩ := anyLowerIn_ok hall opportunity_labels
      simp only [pyFloorDiv, pyIter, Except.bind, bind, Except.instMonad, hb1, hb2]
      exact ⟨_, rfl⟩
  case github_discussion =>
      simp only [Bool.and_eq_true] at h
      obtain ⟨⟨⟨hu, hc⟩, hcat⟩, hl⟩ := h
      obtain ⟨u, hu'⟩ := isIntVal_ex hu
      obtain ⟨c, hc'⟩ := isIntVal_ex hc
      obtain ⟨cat, hcat'⟩ := isStrVal_ex hcat
      obtain ⟨xs, hxs, hall⟩ := isStrList_ex hl
      rw [hu', hc', hcat', hxs]
      obtain ⟨b2, hb2⟩ := anyLowerIn_ok hall opportunity_labels
      simp only [pyFloorDiv, pyIter, pyLowerVal, pyGe, Except.bind, bind,
        Except.instMonad, hb2]
      split <;> exact ⟨_, rfl⟩
  case hacker_news =>
      simp only [Bool.and_eq_true] at h
      obtain ⟨hn, hc⟩ := h
      obtain ⟨n, hn'⟩ := isIntVal_ex hn
      obtain ⟨c, hc'⟩ := isIntVal_ex hc
      rw [hn', hc']
      exact ⟨_, rfl⟩
  case nvd_cve =>
      simp only [] at h
      cases hNum : dictGet item.metadata "cvss_score" (.int 0) with
      | int n =>
          simp only [pyGe, Except.bind, bind, Except.instMonad]
          split
          · exact ⟨_, rfl⟩
          · split
            · exact ⟨_, rfl⟩
            · exact ⟨_, rfl⟩
      | float q =>
          simp only [pyGe, Except.bind, bind, Except.instMonad]
          split
          · exact ⟨_, rfl⟩
          · split
            · exact ⟨_, rfl⟩
            · exact ⟨_, rfl⟩
      | null => rw [hNum] at h; simp [isNumVal] at h
      | bool b => rw [hNum] at h; simp [isNumVal] at h
      | str s => rw [hNum] at h; simp [isNumVal] at h
      | arr xs => rw [hNum] at h; simp [isNumVal] at h
      | obj fs => rw [hNum] at h; simp [isNumVal] at h

/-- C4, amended: `score_item` never raises provided the metadata values its
source's branch reads are well typed (integer counts, string-list labels,
string category, numeric CVSS score); keys may be absent, and absent keys
contribute zero to the engagement delta (with no metadata at all the
engagement delta is exactly zero for every source). -/
theorem C4_total_on_welltyped (item : Item) (h : metaWellTyped item = true) :
    (∃ r, scoreItem item = .ok r) ∧
    engagementScore { item with metadata := [] } = .ok 0 := by
  constructor
  · obtain ⟨e, he⟩ := engagementScore_ok item h
    simp only [scoreItem, he, Except.bind, bind, Except.instMonad]
    exact ⟨_, rfl⟩
  · have congr1 : engagementScore { item with metadata := [] } =
        engagementScore ⟨item.source, "", "", "", "", [], "", 0⟩ := by
      cases item with
      | mk s sid url t b m c sc => cases s <;> rfl
    rw [congr1]
    cases item.source <;> decide

/-- C4 witness: the amended theorem applied to a discussion item with
fully well-typed metadata. -/
theorem C4_total_on_welltyped_witness :
    (∃ r, scoreItem c4okItem = .ok r) ∧
    engagementScore { c4okItem with metadata := [] } = .ok 0 :=
  C4_total_on_welltyped c4okItem (by decide)

theorem evFold_opportunities (rid : Nat) (oid : String) :
    ∀ (evs : List EvidenceRef) (acc : DB),
      (evs.foldl (addEvRow rid oid) acc).opportunities = acc.opportunities := by
  intro evs
  induction evs with
  | nil => intro acc; rfl
  | cons ev rest ih => intro acc; simp [List.foldl_cons, ih, addEvRow]

theorem filter_keyE_of_lt (oid : String) (rid : Nat) :
    ∀ l : List EvRow, (∀ e ∈ l, e.run_id < rid) →
      l.filter (fun e => e.opportunity_id == oid && e.run_id == rid) = [] := by
  intro l hl
  induction l with
  | nil => rfl
  | cons e rest ih =>
      have he := hl e (by simp)
      have : (e.opportunity_id == oid && e.run_id == rid) = false := by
        have : ¬ (e.run_id = rid) := by omega
        simp [this]
      simp only [List.filter_cons, this, Bool.false_eq_true, if_false]
      exact ih (fun x hx => hl x (by simp [hx]))

theorem evFold_filter_map (oid : String) (rid : Nat) (o_id : String) :
    ∀ (evs : List EvidenceRef) (acc : DB),
      (((evs.foldl (addEvRow rid o_id) acc).evidence.filter
          (fun e => e.opportunity_id == oid && e.run_id == rid)).map
        (fun e => (e.source, e.item_title, e.url, e.score)))
      = ((acc.evidence.filter
          (fun e => e.opportunity_id == oid && e.run_id == rid)).map
        (fun e => (e.source, e.item_title, e.url, e.score)))
        ++ (if o_id == oid then
              evs.map (fun ev => (ev.source, ev.item_title, ev.url, ev.score))
            else []) := by
  intro evs
  induction evs with
  | nil => intro acc; simp
  | cons ev rest ih =>
      intro acc
      rw [List.foldl_cons, ih]
      by_cases ho : o_id = oid
      · subst ho
        simp [addEvRow, List.filter_append]
      · have hb : (o_id == oid) = false := by simp [ho]
        simp [addEvRow, List.filter_append, hb, Ne.symm ho]

theorem oppFold_filter_map (oid : String) (rid : Nat) (now : String) :
    ∀ (opps : List Opportunity) (acc : DB),
      (((opps.foldl (addOppStep rid now) acc).evidence.filter
          (fun e => e.opportunity_id == oid && e.run_id == rid)).map
        (fun e => (e.source, e.item_title, e.url, e.score)))
      = ((acc.evidence.filter
          (fun e => e.opportunity_id == oid && e.run_id == rid)).map
        (fun e => (e.source, e.item_title, e.url, e.score)))
        ++ ((opps.filter (fun o => o.id == oid)).map
              (fun o => o.evidence.map
                (fun ev => (ev.source, ev.item_title, ev.url, ev.score)))).flatten := by
  intro opps
  induction opps with
  | nil => intro acc; simp
  | cons o rest ih =>
      intro acc
      rw [List.foldl_cons]
      show (((rest.foldl (addOppStep rid now)
          (o.evidence.foldl (addEvRow rid o.id) _)).evidence.filter _).map _) = _
      rw [ih, evFold_filter_map]
      by_cases ho : o.id = oid
      · simp [List.filter_cons, ho]
      · have hb : (o.id == oid) = false := by simp [ho]
        simp [List.filter_cons, hb]

theorem filter_notkey_key (row : OppRow) (oid : String) (rid : Nat)
    (rows : List OppRow) :
    (rows.filter (fun r => !(r.id == row.id && r.run_id == row.run_id))).filter
        (fun r => r.id == oid && r.run_id == rid)
      = if row.id == oid && row.run_id == rid then []
        else rows.filter (fun r => r.id == oid && r.run_id == rid) := by
  by_cases hk : row.id = oid ∧ row.run_id = rid
  · have hkey : (row.id == oid && row.run_id == rid) = true := by
      simp [hk.1, hk.2]
    rw [hkey, if_pos rfl]
    apply List.filter_eq_nil_iff.mpr
    intro r hr
    rw [List.mem_filter] at hr
    intro hkr
    simp only [Bool.and_eq_true, beq_iff_eq] at hkr
    have : (r.id == row.id && r.run_id == row.run_id) = true := by
      simp [hkr.1, hkr.2, hk.1, hk.2]
    rw [this] at hr
    simp at hr
  · have hkey : (row.id == oid && row.run_id == rid) = false := by
      rcases not_and_or.mp hk with h | h <;> simp [h]
    rw [hkey]
    simp only [Bool.false_eq_true, if_false]
    rw [List.filter_filter]
    apply List.filter_congr
    intro r _
    by_cases h1 : r.id = oid ∧ r.run_id = rid
    · have hr : (r.id == oid && r.run_id == rid) = true := by simp [h1.1, h1.2]
      have hnr : (r.id == row.id && r.run_id == row.run_id) = false := by
        rcases not_and_or.mp hk with h | h
        · have : ¬ (r.id = row.id) := by rw [h1.1]; intro hh; exact h hh.symm
          simp [this]
        · have : ¬ (r.run_id = row.run_id) := by rw [h1.2]; intro hh; exact h hh.symm
          simp [this]
      simp [hr, hnr]
    · have hr : (r.id == oid && r.run_id == rid) = false := by
        rcases not_and_or.mp h1 with h | h <;> simp [h]
      simp [hr]

theorem filter_insertOrReplace (oid : String) (rid : Nat) (row : OppRow)
    (rows : List OppRow) :
    (insertOrReplaceOpp rows row).filter (fun r => r.id == oid && r.run_id == rid)
      = if row.id == oid && row.run_id == rid then [row]
        else rows.filter (fun r => r.id == oid && r.run_id == rid) := by
  unfold insertOrReplaceOpp
  rw [List.filter_append, filter_notkey_key]
  cases hkey : (row.id == oid && row.run_id == rid) <;>
    simp [List.filter_cons, hkey]

theorem oppFold_opportunities (rid : Nat) (now : String) :
    ∀ (opps : List Opportunity) (acc : DB),
      (opps.foldl (addOppStep rid now) acc).opportunities
        = opps.foldl (fun rows opp => insertOrReplaceOpp rows (oppToRow opp rid now))
            acc.opportunities := by
  intro opps
  induction opps with
  | nil => intro acc; rfl
  | cons o rest ih =>
      intro acc
      rw [List.foldl_cons, List.foldl_cons, ih]
      congr 1
      exact evFold_opportunities rid o.id o.evidence _

theorem iorFold_count_le_one (oid : String) (rid : Nat) (now : String) :
    ∀ (opps : List Opportunity) (rows : List OppRow),
      (rows.filter (fun r => r.id == oid && r.run_id == rid)).length ≤ 1 →
      ((opps.foldl (fun rows opp => insertOrReplaceOpp rows (oppToRow opp rid now))
          rows).filter (fun r => r.id == oid && r.run_id == rid)).length ≤ 1 := by
  intro opps
  induction opps with
  | nil => intro rows h; exact h
  | cons o rest ih =>
      intro rows h
      rw [List.foldl_cons]
      apply ih
      rw [filter_insertOrReplace]
      split
      · simp
      · exact h

theorem filter_keyR_of_lt (oid : String) (rid : Nat) :
    ∀ l : List OppRow, (∀ r ∈ l, r.run_id < rid) →
      l.filter (fun r => r.id == oid && r.run_id == rid) = [] := by
  intro l hl
  induction l with
  | nil => rfl
  | cons r rest ih =>
      have hr := hl r (by simp)
      have hb : (r.id == oid && r.run_id == rid) = false := by
        have : ¬ (r.run_id = rid) := by omega
        simp [this]
      simp only [List.filter_cons, hb, Bool.false_eq_true, if_false]
      exact ih (fun x hx => hl x (by simp [hx]))

/-- C7, counterexample: persisting two opportunities with the same id in
one run leaves exactly one opportunity row (the replacing one), but the
evidence rows of the replaced record are not removed: both evidence rows
are present afterwards, so evidence is duplicated, contrary to the
claim. -/
theorem C7_counterexample :
    (((saveOpportunityRun DB.empty [c7opp1, c7opp2] 3 none
          "2025-02-01T00:00:00+00:00").1.opportunities.filter
        (fun r => r.id == "dup-opp" &&
          r.run_id == (saveOpportunityRun DB.empty [c7opp1, c7opp2] 3 none
            "2025-02-01T00:00:00+00:00").2)).map (fun r => r.title)
      = ["Second version"]) ∧
    (((saveOpportunityRun DB.empty [c7opp1, c7opp2] 3 none
          "2025-02-01T00:00:00+00:00").1.evidence.filter
        (fun e => e.opportunity_id == "dup-opp" &&
          e.run_id == (saveOpportunityRun DB.empty [c7opp1, c7opp2] 3 none
            "2025-02-01T00:00:00+00:00").2)).map (fun e => e.item_title)
      = ["first evidence", "second evidence"]) := by
  refine ⟨by decide, by decide⟩

/-- C7, amended: persisting an opportunity whose `(id, run_id)` is already
present replaces the prior opportunity row — afterwards at most one
opportunity row exists per `(id, run_id)` of the new run — but the
evidence rows are only ever appended, so the evidence rows for that key
are the concatenation of the evidence of every saved opportunity with that
id (the replaced record's evidence rows remain). -/
theorem C7_upsert_replaces_row_appends_evidence (db : DB) (opps : List Opportunity) (item_count : Nat)
    (digest_id : Option Nat) (now : String)
    (hfreshOpp : ∀ r ∈ db.opportunities, r.run_id < db.nextRunId)
    (hfreshEv : ∀ e ∈ db.evidence, e.run_id < db.nextRunId) :
    ∀ oid : String,
      (((saveOpportunityRun db opps item_count digest_id now).1.opportunities.filter
          (fun r => r.id == oid &&
            r.run_id == (saveOpportunityRun db opps item_count digest_id now).2)).length ≤ 1)
      ∧ ((((saveOpportunityRun db opps item_count digest_id now).1.evidence.filter
            (fun e => e.opportunity_id == oid &&
              e.run_id == (saveOpportunityRun db opps item_count digest_id now).2)).map
          (fun e => (e.source, e.item_title, e.url, e.score)))
        = ((opps.filter (fun o => o.id == oid)).map
              (fun o => o.evidence.map
                (fun ev => (ev.source, ev.item_title, ev.url, ev.score)))).flatten) := by
  intro oid
  simp only [saveOpportunityRun]
  constructor
  · rw [oppFold_opportunities]
    apply iorFold_count_le_one
    rw [filter_keyR_of_lt oid db.nextRunId db.opportunities hfreshOpp]
    simp
  · rw [oppFold_filter_map]
    rw [filter_keyE_of_lt oid db.nextRunId db.evidence hfreshEv]
    simp

/-- C7 witness: the amended theorem applied to the duplicate-id run. -/
theorem C7_upsert_witness :
    (((saveOpportunityRun DB.empty [c7opp1, c7opp2] 3 none
          "2025-02-01T00:00:00+00:00").1.opportunities.filter
        (fun r => r.id == "dup-opp" &&
          r.run_id == (saveOpportunityRun DB.empty [c7opp1, c7opp2] 3 none
            "2025-02-01T00:00:00+00:00").2)).length ≤ 1)
    ∧ ((((saveOpportunityRun DB.empty [c7opp1, c7opp2] 3 none
            "2025-02-01T00:00:00+00:00").1.evidence.filter
          (fun e => e.opportunity_id == "dup-opp" &&
            e.run_id == (saveOpportunityRun DB.empty [c7opp1, c7opp2] 3 none
              "2025-02-01T00:00:00+00:00").2)).map
        (fun e => (e.source, e.item_title, e.url, e.score)))
      = (([c7opp1, c7opp2].filter (fun o => o.id == "dup-opp")).map
            (fun o => o.evidence.map
              (fun ev => (ev.source, ev.item_title, ev.url, ev.score)))).flatten) :=
  C7_upsert_replaces_row_appends_evidence DB.empty [c7opp1, c7opp2] 3 none
    "2025-02-01T00:00:00+00:00" (by decide) (by decide) "dup-opp"


theorem pyInt_err {v : JVal} {e : PyErr} (h : pyInt v = .error e) : pyIntErrForm e := by
  cases v with
  | int n => simp [pyInt] at h
  | bool b => simp [pyInt] at h
  | float q => simp [pyInt] at h
  | str s =>
      simp only [pyInt] at h
      cases hs : strToInt? s with
      | some n => rw [hs] at h; simp at h
      | none =>
          rw [hs] at h
          cases h
          exact Or.inr ⟨s, rfl⟩
  | null => cases h; exact Or.inl ⟨_, rfl⟩
  | arr xs => cases h; exact Or.inl ⟨_, rfl⟩
  | obj fs => cases h; exact Or.inl ⟨_, rfl⟩

theorem convEvidence_err {ev : JVal} {e : PyErr}
    (h : convEvidence ev = .error e) : pyIntErrForm e := by
  simp only [convEvidence] at h
  cases hp : pyInt (dictGet (evFields ev) "score" (.int 0)) with
  | error e' =>
      rw [hp] at h
      simp only [Except.bind, bind, Except.instMonad] at h
      cases h
      exact pyInt_err hp
  | ok n =>
      rw [hp] at h
      simp [Except.bind, bind, Except.instMonad, pure, Except.pure] at h

theorem mapM_convEvidence_err {evs : List JVal} {e : PyErr}
    (h : evs.mapM convEvidence = .error e) : pyIntErrForm e := by
  induction evs with
  | nil => simp [List.mapM, List.mapM.loop, pure, Except.pure] at h
  | cons ev rest ih =>
      rw [List.mapM_cons] at h
      cases hc : convEvidence ev with
      | error e' =>
          rw [hc] at h
          simp only [Except.bind, bind, Except.instMonad] at h
          cases h
          exact convEvidence_err hc
      | ok r =>
          rw [hc] at h
          simp only [Except.bind, bind, Except.instMonad] at h
          cases hm : rest.mapM convEvidence with
          | error e2 =>
              rw [hm] at h
              simp only [Except.bind, bind, Except.instMonad] at h
              cases h
              exact ih hm
          | ok rs =>
              rw [hm] at h
              simp [Except.bind, bind, Except.instMonad, pure, Except.pure] at h

theorem convOpportunity_err {d : List (String × JVal)} {e : PyErr}
    (h : convOpportunity d = .error e) : pyIntErrForm e := by
  unfold convOpportunity at h
  cases hm : (evList (dictGet d "evidence" (.arr []))).mapM convEvidence with
  | error e' =>
      rw [hm] at h
      simp only [Except.bind, bind, Except.instMonad] at h
      cases h
      exact mapM_convEvidence_err hm
  | ok evs =>
      rw [hm] at h
      simp only [Except.bind, bind, Except.instMonad] at h
      cases hc : pyInt (dictGet d "confidence" .null) with
      | error e' =>
          rw [hc] at h
          simp only [Except.bind, bind, Except.instMonad] at h
          cases h
          exact pyInt_err hc
      | ok n =>
          rw [hc] at h
          simp [Except.bind, bind, Except.instMonad, pure, Except.pure] at h

theorem parseOppsGo_spec :
    ∀ (elems : List JVal) (i : Nat) (opps : List Opportunity) (errs : List String),
      (∀ e ∈ elems, elemPasses e = true → ∃ o, convOpportunity (elemFields e) = .ok o) →
      ∃ conv, convertedFrom elems = .ok conv ∧
        parseOppsGo i elems opps errs
          = .ok (opps.reverse ++ conv, errs.reverse ++ failLinesFrom i elems) := by
  intro elems
  induction elems with
  | nil =>
      intro i opps errs _
      exact ⟨[], rfl, by simp [parseOppsGo, convertedFrom, failLinesFrom]⟩
  | cons e rest ih =>
      intro i opps errs h
      cases e with
      | obj d =>
          by_cases hv : (validateOpportunityDict d).isEmpty = true
          · have hp : elemPasses (.obj d) = true := by simp [elemPasses, hv]
            obtain ⟨o, ho⟩ := h (.obj d) (by simp) hp
            simp only [elemFields] at ho
            obtain ⟨conv, hconv, hgo⟩ :=
              ih (i + 1) (o :: opps) errs (fun x hx => h x (by simp [hx]))
            refine ⟨o :: conv, ?_, ?_⟩
            · simp only [convertedFrom, hp, if_pos, elemFields, ho, hconv,
                Except.bind, bind, Except.instMonad, pure, Except.pure]
            · simp only [parseOppsGo, hv, if_pos, ho, Except.bind, bind,
                Except.instMonad, hgo]
              simp [failLinesFrom, hp]
          · have hp : elemPasses (.obj d) = false := by
              simp [elemPasses]
              simpa using hv
            obtain ⟨conv, hconv, hgo⟩ :=
              ih (i + 1) opps (itemErrLine i d (validateOpportunityDict d) :: errs)
                (fun x hx => h x (by simp [hx]))
            refine ⟨conv, ?_, ?_⟩
            · simp only [convertedFrom, hp, Bool.false_eq_true, if_false, hconv]
            · simp only [parseOppsGo, hv, Bool.false_eq_true, if_false, hgo]
              simp [failLinesFrom, hp, failLineAt]
      | null =>
          obtain ⟨conv, hconv, hgo⟩ :=
            ih (i + 1) opps
              (("Item " ++ toString i ++ ": expected object, got "
                  ++ (JVal.null).typeName) :: errs)
              (fun x hx => h x (by simp [hx]))
          exact ⟨conv, hconv, by
            simp only [parseOppsGo, hgo]
            simp [failLinesFrom, elemPasses, failLineAt]⟩
      | bool b =>
          obtain ⟨conv, hconv, hgo⟩ :=
            ih (i + 1) opps
              (("Item " ++ toString i ++ ": expected object, got "
                  ++ (JVal.bool b).typeName) :: errs)
              (fun x hx => h x (by simp [hx]))
          exact ⟨conv, hconv, by
            simp only [parseOppsGo, hgo]
            simp [failLinesFrom, elemPasses, failLineAt]⟩
      | int n =>
          obtain ⟨conv, hconv, hgo⟩ :=
            ih (i + 1) opps
              (("Item " ++ toString i ++ ": expected object, got "
                  ++ (JVal.int n).typeName) :: errs)
              (fun x hx => h x (by simp [hx]))
          exact ⟨conv, hconv, by
            simp only [parseOppsGo, hgo]
            simp [failLinesFrom, elemPasses, failLineAt]⟩
      | float q =>
          obtain ⟨conv, hconv, hgo⟩ :=
            ih (i + 1) opps
              (("Item " ++ toString i ++ ": expected object, got "
                  ++ (JVal.float q).typeName) :: errs)
              (fun x hx => h x (by simp [hx]))
          exact ⟨conv, hconv, by
            simp only [parseOppsGo, hgo]
            simp [failLinesFrom, elemPasses, failLineAt]⟩
      | str s =>
          obtain ⟨conv, hconv, hgo⟩ :=
            ih (i + 1) opps
              (("Item " ++ toString i ++ ": expected object, got "
                  ++ (JVal.str s).typeName) :: errs)
              (fun x hx => h x (by simp [hx]))
          exact ⟨conv, hconv, by
            simp only [parseOppsGo, hgo]
            simp [failLinesFrom, elemPasses, failLineAt]⟩
      | arr xs =>
          obtain ⟨conv, hconv, hgo⟩ :=
            ih (i + 1) opps
              (("Item " ++ toString i ++ ": expected object, got "
                  ++ (JVal.arr xs).typeName) :: errs)
              (fun x hx => h x (by simp [hx]))
          exact ⟨conv, hconv, by
            simp only [parseOppsGo, hgo]
            simp [failLinesFrom, elemPasses, failLineAt]⟩

theorem parseOppsGo_err :
    ∀ (elems : List JVal) (i : Nat) (opps : List Opportunity) (errs : List String),
      ¬ (∀ e ∈ elems, elemPasses e = true → ∃ o, convOpportunity (elemFields e) = .ok o) →
      ∃ e', parseOppsGo i elems opps errs = .error e' ∧ pyIntErrForm e' := by
  intro elems
  induction elems with
  | nil => intro i opps errs h; exact absurd (by simp) h
  | cons e rest ih =>
      intro i opps errs h
      cases e with
      | obj d =>
          by_cases hv : (validateOpportunityDict d).isEmpty = true
          · cases hc : convOpportunity d with
            | error e' =>
                refine ⟨e', ?_, convOpportunity_err hc⟩
                simp only [parseOppsGo, hv, if_pos, hc, Except.bind, bind,
                  Except.instMonad]
            | ok o =>
                have hrest : ¬ (∀ x ∈ rest, elemPasses x = true →
                    ∃ o, convOpportunity (elemFields x) = .ok o) := by
                  intro hall
                  apply h
                  intro x hx hp
                  rcases List.mem_cons.mp hx with rfl | hx'
                  · exact ⟨o, by simpa [elemFields] using hc⟩
                  · exact hall x hx' hp
                obtain ⟨e', hgo, hform⟩ := ih (i + 1) (o :: opps) errs hrest
                refine ⟨e', ?_, hform⟩
                simp only [parseOppsGo, hv, if_pos, hc, Except.bind, bind,
                  Except.instMonad, hgo]
          · have hrest : ¬ (∀ x ∈ rest, elemPasses x = true →
                ∃ o, convOpportunity (elemFields x) = .ok o) := by
              intro hall
              apply h
              intro x hx hp
              rcases List.mem_cons.mp hx with rfl | hx'
              · rw [elemPasses] at hp; rw [hp] at hv; exact absurd rfl hv
              · exact hall x hx' hp
            obtain ⟨e', hgo, hform⟩ :=
              ih (i + 1) opps (itemErrLine i d (validateOpportunityDict d) :: errs) hrest
            refine ⟨e', ?_, hform⟩
            simp only [parseOppsGo, hv, Bool.false_eq_true, if_false, hgo]
      | null =>
          obtain ⟨e', hgo, hform⟩ := ih (i + 1) opps
            (("Item " ++ toString i ++ ": expected object, got "
                ++ (JVal.null).typeName) :: errs) (by
              intro hall; apply h; intro x hx hp
              rcases List.mem_cons.mp hx with rfl | hx'
              · simp [elemPasses] at hp
              · exact hall x hx' hp)
          exact ⟨e', by simp only [parseOppsGo, hgo], hform⟩
      | bool b =>
          obtain ⟨e', hgo, hform⟩ := ih (i + 1) opps
            (("Item " ++ toString i ++ ": expected object, got "
                ++ (JVal.bool b).typeName) :: errs) (by
              intro hall; apply h; intro x hx hp
              rcases List.mem_cons.mp hx with rfl | hx'
              · simp [elemPasses] at hp
              · exact hall x hx' hp)
          exact ⟨e', by simp only [parseOppsGo, hgo], hform⟩
      | int n =>
          obtain ⟨e', hgo, hform⟩ := ih (i + 1) opps
            (("Item " ++ toString i ++ ": expected object, got "
                ++ (JVal.int n).typeName) :: errs) (by
              intro hall; apply h; intro x hx hp
              rcases List.mem_cons.mp hx with rfl | hx'
              · simp [elemPasses] at hp
              · exact hall x hx' hp)
          exact ⟨e', by simp only [parseOppsGo, hgo], hform⟩
      | float q =>
          obtain ⟨e', hgo, hform⟩ := ih (i + 1) opps
            (("Item " ++ toString i ++ ": expected object, got "
                ++ (JVal.float q).typeName) :: errs) (by
              intro hall; apply h; intro x hx hp
              rcases List.mem_cons.mp hx with rfl | hx'
              · simp [elemPasses] at hp
              · exact hall x hx' hp)
          exact ⟨e', by simp only [parseOppsGo, hgo], hform⟩
      | str s =>
          obtain ⟨e', hgo, hform⟩ := ih (i + 1) opps
            (("Item " ++ toString i ++ ": expected object, got "
                ++ (JVal.str s).typeName) :: errs) (by
              intro hall; apply h; intro x hx hp
              rcases List.mem_cons.mp hx with rfl | hx'
              · simp [elemPasses] at hp
              · exact hall x hx' hp)
          exact ⟨e', by simp only [parseOppsGo, hgo], hform⟩
      | arr xs =>
          obtain ⟨e', hgo, hform⟩ := ih (i + 1) opps
            (("Item " ++ toString i ++ ": expected object, got "
                ++ (JVal.arr xs).typeName) :: errs) (by
              intro hall; apply h; intro x hx hp
              rcases List.mem_cons.mp hx with rfl | hx'
              · simp [elemPasses] at hp
              · exact hall x hx' hp)
          exact ⟨e', by simp only [parseOppsGo, hgo], hform⟩

theorem convertedFrom_allfail {elems : List JVal}
    (h : ∀ e ∈ elems, elemPasses e = false) : convertedFrom elems = .ok [] := by
  induction elems with
  | nil => rfl
  | cons e rest ih =>
      have he := h e (by simp)
      simp only [convertedFrom, he, Bool.false_eq_true, if_false]
      exact ih (fun x hx => h x (by simp [hx]))

theorem convertedFrom_ne_nil {elems : List JVal} {conv : List Opportunity}
    {e₀ : JVal} (hmem : e₀ ∈ elems) (hp : elemPasses e₀ = true)
    (hconv : convertedFrom elems = .ok conv) : conv ≠ [] := by
  induction elems generalizing conv with
  | nil => cases hmem
  | cons e rest ih =>
      rcases List.mem_cons.mp hmem with rfl | hmem'
      · simp only [convertedFrom, hp, if_pos] at hconv
        cases hc : convOpportunity (elemFields e₀) with
        | error e' => rw [hc] at hconv; simp [Except.bind, bind, Except.instMonad] at hconv
        | ok o =>
            rw [hc] at hconv
            cases ht : convertedFrom rest with
            | error e' =>
                rw [ht] at hconv
                simp [Except.bind, bind, Except.instMonad] at hconv
            | ok tail =>
                rw [ht] at hconv
                simp only [Except.bind, bind, Except.instMonad, pure, Except.pure,
                  Except.ok.injEq] at hconv
                subst hconv
                simp
      · cases he : elemPasses e with
        | true =>
            simp only [convertedFrom, he, if_pos] at hconv
            cases hc : convOpportunity (elemFields e) with
            | error e' => rw [hc] at hconv; simp [Except.bind, bind, Except.instMonad] at hconv
            | ok o =>
                rw [hc] at hconv
                cases ht : convertedFrom rest with
                | error e' =>
                    rw [ht] at hconv
                    simp [Except.bind, bind, Except.instMonad] at hconv
                | ok tail =>
                    rw [ht] at hconv
                    simp only [Except.bind, bind, Except.instMonad, pure, Except.pure,
                      Except.ok.injEq] at hconv
                    subst hconv
                    simp
        | false =>
            simp only [convertedFrom, he, Bool.false_eq_true, if_false] at hconv
            exact ih hmem' hconv

theorem failLinesFrom_allfail_ne_nil {elems : List JVal} {i : Nat}
    (hne : elems ≠ []) (h : ∀ e ∈ elems, elemPasses e = false) :
    failLinesFrom i elems ≠ [] := by
  cases elems with
  | nil => exact absurd rfl hne
  | cons e rest =>
      have he := h e (by simp)
      simp [failLinesFrom, he]

theorem parseOpportunitiesJson_red (raw s : String) (elems : List JVal)
    (hex : extractJsonArray raw = .ok s) (hjson : jsonLoads s = .ok (.arr elems))
    (opps : List Opportunity) (errs : List String)
    (hgo : parseOppsGo 0 elems [] [] = .ok (opps, errs)) :
    parseOpportunitiesJson raw =
      if ¬ errs.isEmpty && opps.isEmpty then
        .error (.valueError (allFailedMsg elems.length errs))
      else .ok opps := by
  simp only [parseOpportunitiesJson, hex, hjson, Except.bind, bind, Except.instMonad, hgo]

theorem parseOpportunitiesJson_red_err (raw s : String) (elems : List JVal)
    (hex : extractJsonArray raw = .ok s) (hjson : jsonLoads s = .ok (.arr elems))
    (e' : PyErr) (hgo : parseOppsGo 0 elems [] [] = .error e') :
    parseOpportunitiesJson raw = .error e' := by
  simp only [parseOpportunitiesJson, hex, hjson, Except.bind, bind, Except.instMonad, hgo]

theorem allFailedMsg_head (n : Nat) (ls : List String) :
    (allFailedMsg n ls).data.head? = some 'A' := rfl

theorem intMsg_head (s : String) :
    ("invalid literal for int() with base 10: '" ++ s ++ "'").data.head? = some 'i' := rfl

/-- C3, counterexample: an array whose two elements both pass validation,
the second carrying the evidence score `"high"`: the call raises the
`int()` conversion error instead of returning the valid elements, so "if
at least one element passes validation, the call returns exactly the valid
elements ... and does not raise" fails on the code. -/
theorem C3_counterexample :
    validateOpportunityDict (elemFields c3elem1) = [] ∧
    validateOpportunityDict (elemFields c3elem2) = [] ∧
    jsonLoads c3raw = .ok (.arr [c3elem1, c3elem2]) ∧
    parseOpportunitiesJson c3raw =
      .error (.valueError "invalid literal for int() with base 10: 'high'") := by
  refine ⟨by decide, by decide, by decide, by decide⟩

/-- C3, amended: for a decoded non-empty array, the call raises the
`FormatError` enumerating every per-element failure reason exactly when
every element fails validation; and when at least one element passes *and
every passing element's evidence `score` values are `int()`-convertible*,
the call returns exactly the valid elements converted (evidence `score` is
never validated, so without that proviso the conversion itself can raise —
see the counterexample). -/
theorem C3_partial_acceptance (raw s : String) (elems : List JVal)
    (hex : extractJsonArray raw = .ok s) (hjson : jsonLoads s = .ok (.arr elems))
    (hne : elems ≠ []) :
    ((parseOpportunitiesJson raw
        = .error (.valueError (allFailedMsg elems.length (failLinesFrom 0 elems))))
      ↔ (∀ e ∈ elems, elemPasses e = false))
    ∧ ((∃ e ∈ elems, elemPasses e = true) →
        (∀ e ∈ elems, elemPasses e = true →
          ∃ o, convOpportunity (elemFields e) = .ok o) →
        ∃ conv, convertedFrom elems = .ok conv ∧
          parseOpportunitiesJson raw = .ok conv) := by
  constructor
  · constructor
    · intro heq
      by_contra hno
      push_neg at hno
      obtain ⟨e₀, hmem, hp0⟩ := hno
      have hp : elemPasses e₀ = true := by
        cases h : elemPasses e₀
        · exact absurd h hp0
        · rfl
      by_cases hconvAll : ∀ e ∈ elems, elemPasses e = true →
          ∃ o, convOpportunity (elemFields e) = .ok o
      · obtain ⟨conv, hconv, hgo⟩ := parseOppsGo_spec elems 0 [] [] hconvAll
        simp only [List.reverse_nil, List.nil_append] at hgo
        have hred := parseOpportunitiesJson_red raw s elems hex hjson conv
          (failLinesFrom 0 elems) hgo
        rw [heq] at hred
        have hcne : conv ≠ [] := convertedFrom_ne_nil hmem hp hconv
        split at hred
        · next hcond =>
            simp only [Bool.and_eq_true] at hcond
            have : conv = [] := by simpa using hcond.2
            exact hcne this
        · cases hred
      · obtain ⟨e', hgo, hform⟩ := parseOppsGo_err elems 0 [] [] hconvAll
        have hred := parseOpportunitiesJson_red_err raw s elems hex hjson e' hgo
        rw [heq] at hred
        rcases hform with ⟨m, rfl⟩ | ⟨str0, rfl⟩
        · cases hred
        · have hmsg : allFailedMsg elems.length (failLinesFrom 0 elems)
              = "invalid literal for int() with base 10: '" ++ str0 ++ "'" := by
            injection hred with h1
            injection h1
          have h1 : (allFailedMsg elems.length (failLinesFrom 0 elems)).data.head?
              = ("invalid literal for int() with base 10: '" ++ str0 ++ "'").data.head? := by
            rw [hmsg]
          rw [allFailedMsg_head, intMsg_head] at h1
          simp at h1
    · intro hall
      have h0 : ∀ e ∈ elems, elemPasses e = true →
          ∃ o, convOpportunity (elemFields e) = .ok o := by
        intro e he hp
        rw [hall e he] at hp
        cases hp
      obtain ⟨conv, hconv, hgo⟩ := parseOppsGo_spec elems 0 [] [] h0
      have hcnil : conv = [] := by
        have := convertedFrom_allfail hall
        rw [hconv] at this
        injection this
      subst hcnil
      simp only [List.reverse_nil, List.nil_append] at hgo
      have hred := parseOpportunitiesJson_red raw s elems hex hjson []
        (failLinesFrom 0 elems) hgo
      rw [hred]
      have : (failLinesFrom 0 elems).isEmpty = false := by
        cases h : failLinesFrom 0 elems
        · exact absurd h (failLinesFrom_allfail_ne_nil hne hall)
        · rfl
      simp [this]
  · intro hsome hconvAll
    obtain ⟨e₀, hmem, hp⟩ := hsome
    obtain ⟨conv, hconv, hgo⟩ := parseOppsGo_spec elems 0 [] [] hconvAll
    simp only [List.reverse_nil, List.nil_append] at hgo
    refine ⟨conv, hconv, ?_⟩
    have hred := parseOpportunitiesJson_red raw s elems hex hjson conv
      (failLinesFrom 0 elems) hgo
    rw [hred]
    have hcne : conv ≠ [] := convertedFrom_ne_nil hmem hp hconv
    have : conv.isEmpty = false := by
      cases h : conv
      · exact absurd h hcne
      · rfl
    simp [this]

/-- C3 witness: the amended theorem applied to the repo's own
partial-acceptance fixture (one valid element, one element missing its
required fields). -/
theorem C3_partial_acceptance_witness :
    ((parseOpportunitiesJson cPartialRaw
        = .error (.valueError (allFailedMsg ([cPartialElem1, cPartialElem2] : List JVal).length
            (failLinesFrom 0 [cPartialElem1, cPartialElem2]))))
      ↔ (∀ e ∈ ([cPartialElem1, cPartialElem2] : List JVal), elemPasses e = false))
    ∧ ((∃ e ∈ ([cPartialElem1, cPartialElem2] : List JVal), elemPasses e = true) →
        (∀ e ∈ ([cPartialElem1, cPartialElem2] : List JVal), elemPasses e = true →
          ∃ o, convOpportunity (elemFields e) = .ok o) →
        ∃ conv, convertedFrom [cPartialElem1, cPartialElem2] = .ok conv ∧
          parseOpportunitiesJson cPartialRaw = .ok conv) :=
  C3_partial_acceptance cPartialRaw cPartialRaw [cPartialElem1, cPartialElem2]
    (by decide) (by decide) (by decide)

/-- C8: `get_opportunity_trends` returns exactly one trend entry per distinct
opportunity id; each entry's `data_points` contain exactly the points
`(run_id, confidence, generated_at)` of the stored rows with that id,
ordered by `generated_at` ascending, and its `title` comes from the row
with the latest `generated_at` for that id (rows sharing an id are assumed
to carry distinct `generated_at` stamps, as successive runs produce). -/
theorem C8_trend_aggregation (db : DB)
    (hgd : db.opportunities.Pairwise
      (fun a b => a.id = b.id → a.generated_at ≠ b.generated_at)) :
    (((getOpportunityTrends db).map (fun t => t.id)).Nodup
      ∧ ∀ oid, (oid ∈ (getOpportunityTrends db).map (fun t => t.id)) ↔
          (oid ∈ db.opportunities.map (fun r => r.id)))
    ∧ (∀ t ∈ getOpportunityTrends db, t.data_points =
        (sortByGatAsc (db.opportunities.filter (fun r => r.id == t.id))).map pointOf)
    ∧ (∀ t ∈ getOpportunityTrends db, ∃ r ∈ db.opportunities,
        r.id = t.id ∧ t.title = r.title ∧
        ∀ s ∈ db.opportunities, s.id = t.id →
          strLt r.generated_at s.generated_at = false) := by
  obtain ⟨hN, hC, hO, hP, hT⟩ := trends_foldl_spec (sortRowsAsc db.opportunities)
  have hperm : List.Perm (sortRowsAsc db.opportunities) db.opportunities :=
    perm_sortRowsAsc db.opportunities
  have hts : getOpportunityTrends db =
      (sortRowsAsc db.opportunities).foldl addTrendRow [] := rfl
  refine ⟨⟨hts ▸ hN, ?_⟩, ?_, ?_⟩
  · intro oid
    rw [hts]
    constructor
    · intro h
      obtain ⟨t, htm, htid⟩ := List.mem_map.mp h
      obtain ⟨r0, hr0, hr0id⟩ := hO t htm
      exact List.mem_map.mpr ⟨r0, hperm.mem_iff.mp hr0, htid ▸ hr0id⟩
    · intro h
      obtain ⟨r0, hr0, hr0id⟩ := List.mem_map.mp h
      exact hr0id ▸ hC r0 (hperm.mem_iff.mpr hr0)
  · intro t htm
    rw [hts] at htm
    rw [hP t htm, sortRowsAsc_filter_eq db.opportunities t.id hgd]
  · intro t htm
    rw [hts] at htm
    obtain ⟨rl, hrl, hrlt⟩ := hT t htm
    have hrlmem : rl ∈ (sortRowsAsc db.opportunities).filter
        (fun r => r.id == t.id) := mem_of_getLast?_eq hrl
    have hrlfil := List.mem_filter.mp hrlmem
    refine ⟨rl, hperm.mem_iff.mp hrlfil.1, beq_iff_eq.mp hrlfil.2, hrlt, ?_⟩
    intro s hs hsid
    have hsmem : s ∈ (sortRowsAsc db.opportunities).filter
        (fun r => r.id == t.id) :=
      List.mem_filter.mpr ⟨hperm.mem_iff.mpr hs, beq_iff_eq.mpr hsid⟩
    have hpw : ((sortRowsAsc db.opportunities).filter
        (fun r => r.id == t.id)).Pairwise (fun a b => rowKeyLt b a = false) :=
      List.Pairwise.sublist (List.filter_sublist _) (pairwise_sortRowsAsc _)
    rcases pairwise_getLast_rel hpw hrl s hsmem with rfl | hrel
    · exact strLt_irrefl _
    · cases hg : strLt rl.generated_at s.generated_at
      · rfl
      · have hideq : rl.id = s.id := (beq_iff_eq.mp hrlfil.2).trans hsid.symm
        have := (rowKeyLt_iff rl s).mpr (Or.inr ⟨hideq, hg⟩)
        rw [this] at hrel
        cases hrel

theorem C8_trend_aggregation_witness :
    getOpportunityTrends c8db =
      [⟨"terraform-drift-detector", "Terraform Drift Detector v2",
        [⟨1, 82, "2025-01-01T00:00:00+00:00"⟩, ⟨2, 90, "2025-01-08T00:00:00+00:00"⟩]⟩]
    ∧ (∀ t ∈ getOpportunityTrends c8db, t.data_points =
        (sortByGatAsc (c8db.opportunities.filter (fun r => r.id == t.id))).map pointOf) := by
  exact ⟨by decide, (C8_trend_aggregation c8db (by decide)).2.1⟩

/-- C1 counterexample: when the first completion call itself raises a
provider error (`LLMError`), the function returns `None` immediately: no
repair request is issued (one call total), contradicting the claim that
every first-attempt failure leads to exactly one repair request. -/
theorem C1_counterexample :
    c1oracleDown 0 = .error "connection refused"
    ∧ (structuredOpportunityReport DB.empty [c1item] c1oracleDown "T").calls.length = 1
    ∧ (structuredOpportunityReport DB.empty [c1item] c1oracleDown "T").outcome = .ok none := by
  refine ⟨rfl, by decide, by decide⟩

/-- C1 (amended): the engine never issues a third completion call; a
provider error on the *first* call yields `None` directly with no repair
request; a caught parse failure of the first response triggers exactly one
repair request embedding the failure diagnostic and the first 500
characters of the raw response at the lower temperature 0.1, and if that
second attempt fails too (provider error or caught parse failure) the
outcome is `None` rather than an exception. -/
theorem C1_retry_behavior (db : DB) (items : List Item)
    (oracle : Nat → Except String LLMResponse) (now : String)
    (hne : items ≠ []) :
    ((structuredOpportunityReport db items oracle now).calls.length ≤ 2)
    ∧ (∀ msg, oracle 0 = .error msg →
        structuredOpportunityReport db items oracle now =
          ⟨[⟨STRUCTURED_OPPORTUNITY_SYSTEM,
              pyFormat STRUCTURED_OPPORTUNITY_USER
                [("items", formatItemsForPrompt items 50)], temp02, 3000⟩],
            .ok none, db⟩)
    ∧ (∀ resp e, oracle 0 = .ok resp →
        parseOpportunitiesJson resp.text = .error e →
        caughtByFirstHandler e = true →
        ((structuredOpportunityReport db items oracle now).calls =
            [⟨STRUCTURED_OPPORTUNITY_SYSTEM,
               pyFormat STRUCTURED_OPPORTUNITY_USER
                 [("items", formatItemsForPrompt items 50)], temp02, 3000⟩,
             ⟨STRUCTURED_OPPORTUNITY_SYSTEM,
               pyFormat STRUCTURED_OPPORTUNITY_REPAIR
                 [("error", pyErrMsg e), ("raw", resp.text.take 500)], temp01, 3000⟩]
          ∧ temp01 < temp02
          ∧ (∀ msg2, oracle 1 = .error msg2 →
              (structuredOpportunityReport db items oracle now).outcome = .ok none)
          ∧ (∀ resp2 e2, oracle 1 = .ok resp2 →
              parseOpportunitiesJson resp2.text = .error e2 →
              caughtBySecondHandler e2 = true →
              (structuredOpportunityReport db items oracle now).outcome = .ok none))) := by
  cases items with
  | nil => exact absurd rfl hne
  | cons it its =>
      refine ⟨?_, ?_, ?_⟩
      · cases h0 : oracle 0 with
        | error msg => simp [structuredOpportunityReport, h0]
        | ok resp =>
            cases hp : parseOpportunitiesJson resp.text with
            | ok opps =>
                simp [structuredOpportunityReport, h0, hp, finishReport_calls]
            | error e =>
                by_cases hc : caughtByFirstHandler e = true
                · cases h1 : oracle 1 with
                  | error msg2 =>
                      simp [structuredOpportunityReport, h0, hp, hc, h1]
                  | ok resp2 =>
                      cases hp2 : parseOpportunitiesJson resp2.text with
                      | ok opps2 =>
                          simp [structuredOpportunityReport, h0, hp, hc, h1, hp2,
                            finishReport_calls]
                      | error e2 =>
                          by_cases hc2 : caughtBySecondHandler e2 = true
                          · simp [structuredOpportunityReport, h0, hp, hc, h1, hp2, hc2]
                          · simp [structuredOpportunityReport, h0, hp, hc, h1, hp2, hc2]
                · simp [structuredOpportunityReport, h0, hp, hc]
      · intro msg h0
        simp [structuredOpportunityReport, h0]
      · intro resp e h0 hp hcaught
        refine ⟨?_, by decide, ?_, ?_⟩
        · cases h1 : oracle 1 with
          | error msg2 =>
              simp [structuredOpportunityReport, h0, hp, hcaught, h1]
          | ok resp2 =>
              cases hp2 : parseOpportunitiesJson resp2.text with
              | ok opps2 =>
                  simp [structuredOpportunityReport, h0, hp, hcaught, h1, hp2,
                    finishReport_calls]
              | error e2 =>
                  by_cases hc2 : caughtBySecondHandler e2 = true
                  · simp [structuredOpportunityReport, h0, hp, hcaught, h1, hp2, hc2]
                  · simp [structuredOpportunityReport, h0, hp, hcaught, h1, hp2, hc2]
        · intro msg2 h1
          simp [structuredOpportunityReport, h0, hp, hcaught, h1]
        · intro resp2 e2 h1 hp2 hc2
          simp [structuredOpportunityReport, h0, hp, hcaught, h1, hp2, hc2]

theorem C1_retry_behavior_witness :
    (([c1item] : List Item) ≠ [])
    ∧ ((structuredOpportunityReport DB.empty [c1item] c1oracleGarbage "T").calls.length ≤ 2)
    ∧ (structuredOpportunityReport DB.empty [c1item] c1oracleGarbage "T").outcome = .ok none := by
  refine ⟨by decide, (C1_retry_behavior DB.empty [c1item] c1oracleGarbage "T" (by decide)).1, ?_⟩
  exact ((C1_retry_behavior DB.empty [c1item] c1oracleGarbage "T" (by decide)).2.2
    ⟨"no json here", 3, 5, "m"⟩ (.valueError "No JSON array found in response")
    rfl (by decide) rfl).2.2.1 "rate limited" rfl

/-- C2 counterexample: a perfectly valid JSON array whose string element
contains `"]"` is truncated by the bracket scan, which counts brackets
inside JSON strings: extraction of the fence-wrapped array returns a
proper prefix of it, not the array itself. -/
theorem C2_counterexample :
    jsonLoads "[\"]\"]" = .ok (.arr [.str "]"])
    ∧ extractJsonArray "```json\n[\"]\"]\n```" = .ok "[\"]"
    ∧ ("[\"]" : String) ≠ "[\"]\"]" := by
  refine ⟨by decide, by decide, by decide⟩

/-- C2 (amended): for arrays whose bracket structure is balanced in the
code's sense (the count of `[` and `]` characters, including any inside
JSON strings, first returns to zero at the last character) and that
contain no backtick, extraction returns the array exactly, both when it is
wrapped in markdown code fences and when it is surrounded by prose free of
brackets and backticks; an input with no `[` fails with the "no array"
error, and an unclosed `[\x7bincomplete` fails with the "unbalanced"
error. -/
theorem C2_extract_round_trip (A P S : String)
    (hA : scanBalanced A = true)
    (hAbt : ∀ c ∈ A.data, c ≠ '`')
    (hP : ∀ c ∈ P.data, proseSafe c = true)
    (hS : ∀ c ∈ S.data, proseSafe c = true) :
    extractJsonArray ("```json\n" ++ A ++ "\n```") = .ok A
    ∧ extractJsonArray (P ++ A ++ S) = .ok A
    ∧ extractJsonArray "no array here" =
        .error (.valueError "No JSON array found in response")
    ∧ extractJsonArray "[\x7bincomplete" =
        .error (.valueError "Unbalanced brackets in JSON array") := by
  obtain ⟨tl, hhead⟩ := scanBalanced_shape hA
  refine ⟨?_, ?_, by decide, by decide⟩
  · refine extract_stripped A _ [] ['\n'] hA (by simp) ?_
    rw [subFence_fencewrap A tl hhead hAbt]
    rw [List.nil_append]
  · refine extract_stripped A _ P.data S.data hA hP ?_
    unfold subFence
    rw [String.data_append, String.data_append]
    rw [subFenceGo_id _ _ none ?hbt]
    case hbt =>
      intro c hc
      rcases List.mem_append.mp hc with hc' | hc'
      · rcases List.mem_append.mp hc' with hc'' | hc''
        · have := hP c hc''
          simp [proseSafe] at this
          exact this.2
        · exact hAbt c hc''
      · have := hS c hc'
        simp [proseSafe] at this
        exact this.2

theorem C2_extract_round_trip_witness :
    (scanBalanced "[1, 2]" = true
      ∧ (∀ c ∈ ("[1, 2]" : String).data, c ≠ '`')
      ∧ (∀ c ∈ ("Here is the report: " : String).data, proseSafe c = true)
      ∧ (∀ c ∈ (" That is all." : String).data, proseSafe c = true))
    ∧ extractJsonArray "```json\n[1, 2]\n```" = .ok "[1, 2]"
    ∧ extractJsonArray "Here is the report: [1, 2] That is all." = .ok "[1, 2]" := by
  refine ⟨⟨by decide, by decide, by decide, by decide⟩, ?_, ?_⟩
  · exact (C2_extract_round_trip "[1, 2]" "Here is the report: " " That is all."
      (by decide) (by decide) (by decide) (by decide)).1
  · exact (C2_extract_round_trip "[1, 2]" "Here is the report: " " That is all."
      (by decide) (by decide) (by decide) (by decide)).2.1

end SignalExtract
